import Mathlib

/-!
Verification of the qdashboard repository's natural-language specification
against a shallow embedding of its Python source.

Python strings are modelled as `List Char` (named `Str`); bytes of a file as
`List Nat`; results of external subprocess invocations are supplied as oracle
values (`RunOutcome` for calls made with a `timeout=` argument, `ProcOutcome`
for calls made without one), so each embedded function is a pure function of
its inputs and of the outcomes of the external calls it performs.
-/

set_option autoImplicit false

abbrev Str := List Char

/-- The single-quote character, written via its code point. -/
def squote : Char := Char.ofNat 39

/-- The double-quote character. -/
def dquote : Char := Char.ofNat 34

/-- Python `str.strip()` whitespace set (space, tab, newline, CR, VT, FF). -/
def pyIsSpace (c : Char) : Bool :=
  c = ' ' || c = '\t' || c = '\n' || c = '\r' || c = Char.ofNat 11 || c = Char.ofNat 12

/-- Python `str.strip()`: drop leading and trailing whitespace. -/
def pyStrip (s : Str) : Str :=
  ((s.dropWhile pyIsSpace).reverse.dropWhile pyIsSpace).reverse

/-- Python `str.split(sep)` with a single-character separator: split at every
occurrence of the character, keeping empty chunks (`"".split` gives `[""]`). -/
def splitChar (sep : Char) : Str → List Str
  | [] => [[]]
  | c :: cs =>
    if c = sep then [] :: splitChar sep cs
    else
      match splitChar sep cs with
      | [] => [[c]]
      | h :: t => (c :: h) :: t

theorem dropWhile_length_le {α : Type} (p : α → Bool) (l : List α) :
    (l.dropWhile p).length ≤ l.length :=
  (List.dropWhile_suffix p).sublist.length_le

/-- Python `str.split()` with no argument: split on runs of whitespace,
dropping empty tokens. -/
def pySplitWs : Str → List Str
  | [] => []
  | c :: cs =>
    if pyIsSpace c then pySplitWs cs
    else (c :: cs.takeWhile (fun d => !pyIsSpace d)) :: pySplitWs (cs.dropWhile (fun d => !pyIsSpace d))
termination_by s => s.length
decreasing_by
  all_goals simp_wf
  all_goals exact Nat.lt_succ_of_le (dropWhile_length_le _ cs)

/-- `leadsWith p s` is Python `s.startswith(p)`. -/
def leadsWith : Str → Str → Bool
  | [], _ => true
  | _ :: _, [] => false
  | a :: as, b :: bs => a = b && leadsWith as bs

/-- `trailsWith p s` is Python `s.endswith(p)`. -/
def trailsWith (p s : Str) : Bool :=
  leadsWith p.reverse s.reverse

/-- `containsSub n h` is Python `n in h` (substring containment). -/
def containsSub (needle : Str) : Str → Bool
  | [] => needle.isEmpty
  | c :: cs => leadsWith needle (c :: cs) || containsSub needle cs

/-- Decimal rendering of a natural number, as Python `str` does. -/
def decChar (d : Nat) : Char := ("0123456789".data.getD d '0')

def natDec (n : Nat) : Str :=
  if _h : n < 10 then [decChar n]
  else natDec (n / 10) ++ [decChar (n % 10)]
decreasing_by exact Nat.div_lt_self (by omega) (by omega)

/-- Decimal rendering of an integer, as Python `str` does. -/
def intDec (i : Int) : Str :=
  if i < 0 then '-' :: natDec i.natAbs else natDec i.toNat

/-- Lowercase hexadecimal rendering of a natural number. -/
def hexChar (d : Nat) : Char := ("0123456789abcdef".data.getD d '0')

def hexStr (n : Nat) : Str :=
  if _h : n < 16 then [hexChar n]
  else hexStr (n / 16) ++ [hexChar (n % 16)]
decreasing_by exact Nat.div_lt_self (by omega) (by omega)

/-- Python `format(n, '08x')`: lowercase hex, left-padded with zeros to
width 8. -/
def toHex8 (n : Nat) : Str :=
  List.replicate (8 - (hexStr n).length) '0' ++ hexStr n

/-- One external process invocation as the application issues it: its argv
and the `timeout=` argument of the `subprocess.run` call (none when the call
passes no timeout). -/
structure SubprocessCall where
  argv : List String
  timeoutSec : Option Nat
deriving DecidableEq

/-- Outcome of a `subprocess.run` call made with a `timeout=` argument:
it completed with a return code and captured output, it hit the timeout
(`subprocess.TimeoutExpired`), or it raised some other exception (for
example `FileNotFoundError` when the executable is missing). -/
inductive RunOutcome where
  | completed (returncode : Int) (stdout stderr : Str)
  | timedOut
  | raised (msg : Str)
deriving DecidableEq

/-- Outcome of a subprocess call made without a `timeout=` argument:
completion with a return code and captured output, or an exception. -/
inductive ProcOutcome where
  | completed (returncode : Int) (stdout stderr : Str)
  | raised (msg : Str)
deriving DecidableEq

-- ======================================================================
-- `experiments/job_submission.py`: `submit_slurm_job`
-- ======================================================================

/-- The one `sbatch` invocation `submit_slurm_job` performs:
`subprocess.run(['sbatch', job_script_path], capture_output=True, text=True,
timeout=30)`. -/
def sbatchCall (jobScriptPath : String) : SubprocessCall :=
  { argv := ["sbatch", jobScriptPath], timeoutSec := some 30 }

/-- The subprocess calls a single execution of `submit_slurm_job` performs:
exactly the one `sbatch` call (the body has a single `subprocess.run` and no
retry loop). -/
def submitSlurmJobCalls (jobScriptPath : String) : List SubprocessCall :=
  [sbatchCall jobScriptPath]

/-- The job-ID scan of `submit_slurm_job`: the first line of stdout containing
`'Submitted batch job'`, split on whitespace, last token. -/
def findJobId (stdout : Str) : Option Str :=
  match (splitChar '\n' stdout).find? (fun l => containsSub "Submitted batch job".data l) with
  | none => none
  | some l => (pySplitWs l).getLast?

structure SubmitJobResult where
  success : Bool
  message : Str
  jobId : Option Str
deriving DecidableEq

/-- `submit_slurm_job(job_script_path)` as a function of the outcome of its
single `sbatch` call. -/
def submitSlurmJob (outcome : RunOutcome) : SubmitJobResult :=
  match outcome with
  | .completed rc out err =>
    if rc = 0 then
      match findJobId out with
      | some jid =>
        if jid = ([] : Str) then ⟨true, "Job submitted successfully".data, none⟩
        else ⟨true, "Job submitted successfully with ID: ".data ++ jid, some jid⟩
      | none => ⟨true, "Job submitted successfully".data, none⟩
    else ⟨false, "SLURM submission failed: ".data ++ err, none⟩
  | .timedOut => ⟨false, "SLURM submission timed out".data, none⟩
  | .raised msg => ⟨false, "Error submitting to SLURM: ".data ++ msg, none⟩

/-- Claim-side reading of the job ID ("the last word of the 'Submitted batch
job' output line, or None when no such line is present"). -/
def claimedJobId (stdout : Str) : Option Str :=
  match (splitChar '\n' stdout).find? (fun l => containsSub "Submitted batch job".data l) with
  | none => none
  | some l => (pySplitWs l).getLast?

-- ======================================================================
-- `qpu/slurm.py` / `qpu/monitoring.py`: queue status
-- ======================================================================

/-- `check_queue_running_jobs(queue_name)` as a function of the outcome of
`subprocess.check_output(['squeue', '-p', queue_name, '-t', 'RUNNING'])`:
`none` models the command failing (`CalledProcessError`/`FileNotFoundError`).
There are running jobs when the stripped output has more than one line. -/
def checkQueueRunningJobs (squeueOutput : Option Str) : Bool :=
  match squeueOutput with
  | none => false
  | some out => (splitChar '\n' (pyStrip out)).length > 1

/-- `check_qpu_queue_status(qpu_name, queue_name)` as a function of the
outcomes of its `sinfo -p` call (`none` models `CalledProcessError` or
`FileNotFoundError`) and of the `squeue` call made by
`check_queue_running_jobs`. The `qpu_name` argument is unused by the source
function's logic. -/
def checkQpuQueueStatus (queueName : Str) (sinfoOutput : Option Str)
    (squeueOutput : Option Str) : Str :=
  if queueName = "N/A".data then "offline".data
  else
    match sinfoOutput with
    | none => "offline".data
    | some out =>
      if containsSub queueName out then
        if checkQueueRunningJobs squeueOutput then "running".data else "online".data
      else "offline".data

-- ======================================================================
-- `experiments/job_submission.py`: `generate_experiment_id`
-- ======================================================================

/-- `generate_experiment_id(runcard_path, platform)` as a function of the
current Unix timestamp, of the runcard file's bytes when it exists (`none`
models `os.path.exists` returning False), and of `hashlib.md5`'s hexdigest
(`md5hex`, supplied as a parameter since MD5 is an external library): the MD5
input is the platform bytes, then `str(timestamp)` bytes, then the file
contents. -/
def generateExperimentId (md5hex : Str → Str) (platform : Str) (timestamp : Nat)
    (runcardContents : Option Str) : Str :=
  let digest := md5hex (platform ++ natDec timestamp ++ runcardContents.getD [])
  "exp_".data ++ toHex8 timestamp ++ "_".data ++ digest.take 8

/-- A lowercase hexadecimal digit. -/
def isLowerHexDigit (c : Char) : Bool := c ∈ "0123456789abcdef".data

-- ======================================================================
-- Supporting lemmas
-- ======================================================================

theorem pySplitWs_ne_nil (s : Str) : ∀ t ∈ pySplitWs s, t ≠ [] := by
  induction s using pySplitWs.induct with
  | case1 => intro t ht; simp [pySplitWs] at ht
  | case2 c cs hc ih =>
    intro t ht
    rw [pySplitWs, if_pos hc] at ht
    exact ih t ht
  | case3 c cs hc ih =>
    intro t ht
    rw [pySplitWs, if_neg hc] at ht
    rcases List.mem_cons.mp ht with h | h
    · subst h; simp
    · exact ih t h

theorem findJobId_eq_claimedJobId : findJobId = claimedJobId := rfl

theorem findJobId_ne_some_nil (out : Str) : findJobId out ≠ some [] := by
  unfold findJobId
  cases h : (splitChar '\n' out).find? (fun l => containsSub "Submitted batch job".data l) with
  | none => simp
  | some l =>
    simp only [ne_eq, Option.some.injEq]
    intro hlast
    exact pySplitWs_ne_nil l [] (List.mem_of_mem_getLast? (by simp [hlast])) rfl

theorem submitSlurmJob_jobId_of_rc_zero (out err : Str) :
    (submitSlurmJob (.completed 0 out err)).jobId = claimedJobId out := by
  rw [submitSlurmJob]
  simp only [if_pos rfl]
  cases h : findJobId out with
  | none => simp [← findJobId_eq_claimedJobId, h]
  | some jid =>
    have : jid ≠ [] := by
      intro hnil; subst hnil; exact findJobId_ne_some_nil out h
    simp [this, ← findJobId_eq_claimedJobId, h]

theorem hexChar_hex (d : Nat) : isLowerHexDigit (hexChar d) = true := by
  unfold hexChar
  rcases h : ("0123456789abcdef".data)[d]? with _ | c
  · rw [List.getD_eq_getElem?_getD, h]; decide
  · have hc : c ∈ "0123456789abcdef".data :=
      List.get?_mem (by rwa [List.get?_eq_getElem?])
    rw [List.getD_eq_getElem?_getD, h]
    simpa [isLowerHexDigit] using hc

theorem hexStr_hex (n : Nat) : ∀ c ∈ hexStr n, isLowerHexDigit c = true := by
  induction n using hexStr.induct with
  | case1 n hn =>
    intro c hc
    rw [hexStr, dif_pos hn] at hc
    rcases List.mem_singleton.mp hc with h
    subst h; exact hexChar_hex n
  | case2 n hn ih =>
    intro c hc
    rw [hexStr, dif_neg hn] at hc
    rcases List.mem_append.mp hc with h | h
    · exact ih c h
    · rcases List.mem_singleton.mp h with h
      subst h; exact hexChar_hex (n % 16)

theorem hexStr_length_le (k : Nat) : ∀ n, 0 < k → n < 16 ^ k → (hexStr n).length ≤ k := by
  induction k with
  | zero => intro n hk _; omega
  | succ k ih =>
    intro n _ hn
    by_cases h16 : n < 16
    · rw [hexStr, dif_pos h16]; simp
    · rw [hexStr, dif_neg h16]
      have hk0 : 0 < k := by
        rcases Nat.eq_zero_or_pos k with h | h
        · subst h; simp [pow_succ] at hn; omega
        · exact h
      have hdiv : n / 16 < 16 ^ k := by
        rw [Nat.div_lt_iff_lt_mul (by norm_num : 0 < 16)]
        calc n < 16 ^ (k + 1) := hn
        _ = 16 ^ k * 16 := by rw [pow_succ]
      have := ih (n / 16) hk0 hdiv
      simp [List.length_append]
      omega

theorem toHex8_length (n : Nat) (h : n < 2 ^ 32) : (toHex8 n).length = 8 := by
  have h16 : n < 16 ^ 8 := by norm_num at h ⊢; omega
  have := hexStr_length_le 8 n (by norm_num) h16
  simp [toHex8, List.length_append, List.length_replicate]
  omega

theorem toHex8_hex (n : Nat) : ∀ c ∈ toHex8 n, isLowerHexDigit c = true := by
  intro c hc
  rcases List.mem_append.mp hc with h | h
  · rw [List.eq_of_mem_replicate h]; decide
  · exact hexStr_hex n c h

-- ======================================================================
-- Claim theorems: C2, C5, C10
-- ======================================================================

/-- Claim C2: `submit_slurm_job` invokes `sbatch` exactly once per call and
never retries; it returns `(False, error-message, None)` when the `sbatch`
process exits non-zero, times out, or cannot be started; it succeeds if and
only if the return code is zero, and the returned job ID is the last word of
the `'Submitted batch job'` stdout line, or `None` when no such line exists. -/
theorem claim_c2_submit_slurm_job (p : String) (o : RunOutcome) :
    submitSlurmJobCalls p = [sbatchCall p] ∧
    (submitSlurmJobCalls p).length = 1 ∧
    ((submitSlurmJob o).success = true ↔ ∃ rc out err, o = .completed rc out err ∧ rc = 0) ∧
    (∀ rc out err, o = .completed rc out err → rc ≠ 0 →
      submitSlurmJob o = ⟨false, "SLURM submission failed: ".data ++ err, none⟩) ∧
    (o = .timedOut →
      submitSlurmJob o = ⟨false, "SLURM submission timed out".data, none⟩) ∧
    (∀ m, o = .raised m →
      submitSlurmJob o = ⟨false, "Error submitting to SLURM: ".data ++ m, none⟩) ∧
    (∀ out err, o = .completed 0 out err →
      (submitSlurmJob o).jobId = claimedJobId out) := by
  refine ⟨rfl, rfl, ?_, ?_, ?_, ?_, ?_⟩
  · constructor
    · intro hs
      cases o with
      | completed rc out err =>
        by_cases hrc : rc = 0
        · exact ⟨rc, out, err, rfl, hrc⟩
        · rw [submitSlurmJob, if_neg hrc] at hs; simp at hs
      | timedOut => simp [submitSlurmJob] at hs
      | raised m => simp [submitSlurmJob] at hs
    · rintro ⟨rc, out, err, rfl, rfl⟩
      rw [submitSlurmJob]
      simp only [if_pos rfl]
      cases h : findJobId out with
      | none => rfl
      | some jid => by_cases hj : jid = ([] : Str) <;> simp [hj]
  · rintro rc out err rfl hrc
    rw [submitSlurmJob, if_neg hrc]
  · rintro rfl; rfl
  · rintro m rfl; rfl
  · rintro out err rfl
    exact submitSlurmJob_jobId_of_rc_zero out err

/-- Claim C5: `check_qpu_queue_status` always returns one of `'online'`,
`'running'`, `'offline'`: `'offline'` when the queue name is `'N/A'`, when the
`sinfo -p` call fails, or when the queue name does not appear in `sinfo`'s
output; `'running'` when the queue appears and `check_queue_running_jobs`
finds at least one RUNNING job (more than the header line in `squeue`'s
output); `'online'` otherwise. -/
theorem claim_c5_check_qpu_queue_status (q : Str) (si sq : Option Str) :
    (checkQpuQueueStatus q si sq = "online".data ∨
     checkQpuQueueStatus q si sq = "running".data ∨
     checkQpuQueueStatus q si sq = "offline".data) ∧
    (q = "N/A".data → checkQpuQueueStatus q si sq = "offline".data) ∧
    (si = none → checkQpuQueueStatus q si sq = "offline".data) ∧
    (∀ out, si = some out → containsSub q out = false →
      checkQpuQueueStatus q si sq = "offline".data) ∧
    (∀ out, si = some out → q ≠ "N/A".data → containsSub q out = true →
      (checkQpuQueueStatus q si sq = "running".data ↔ checkQueueRunningJobs sq = true)) ∧
    (∀ out, si = some out → q ≠ "N/A".data → containsSub q out = true →
      checkQueueRunningJobs sq = false →
      checkQpuQueueStatus q si sq = "online".data) ∧
    (∀ out, checkQueueRunningJobs (some out) = true ↔
      2 ≤ (splitChar '\n' (pyStrip out)).length) := by
  refine ⟨?_, ?_, ?_, ?_, ?_, ?_, ?_⟩
  · unfold checkQpuQueueStatus
    split
    · right; right; rfl
    · cases si with
      | none => right; right; rfl
      | some out =>
        by_cases hc : containsSub q out
        · by_cases hr : checkQueueRunningJobs sq
          · right; left; simp [hc, hr]
          · left; simp [hc, hr]
        · right; right; simp [hc]
  · intro h; unfold checkQpuQueueStatus; rw [if_pos h]
  · intro h; subst h; unfold checkQpuQueueStatus; split <;> rfl
  · intro out hsi hc; subst hsi; unfold checkQpuQueueStatus
    split
    · rfl
    · simp [hc]
  · intro out hsi hq hc; subst hsi; unfold checkQpuQueueStatus
    rw [if_neg hq]
    constructor
    · intro hr
      by_cases h : checkQueueRunningJobs sq
      · exact h
      · simp [hc, h] at hr
    · intro h; simp [hc, h]
  · intro out hsi hq hc hr; subst hsi; unfold checkQpuQueueStatus
    rw [if_neg hq]; simp [hc, hr]
  · intro out
    simp [checkQueueRunningJobs]
    omega

/-- Claim C10: `generate_experiment_id` returns `exp_` followed by the
timestamp as 8 lowercase hex digits, `_`, and the first 8 characters of the
MD5 hexdigest of the platform name, the decimal timestamp string, and the
runcard contents when the file exists — total length 21 for any timestamp
below `2^32`. The MD5 hexdigest is an external-library function, supplied as
a parameter together with the facts that it produces 32 lowercase hex
characters. -/
theorem claim_c10_generate_experiment_id (md5hex : Str → Str) (platform : Str)
    (ts : Nat) (contents : Option Str)
    (hlen : ∀ bs, (md5hex bs).length = 32)
    (hhex : ∀ bs, ∀ c ∈ md5hex bs, isLowerHexDigit c = true)
    (hts : ts < 2 ^ 32) :
    ∃ a b, generateExperimentId md5hex platform ts contents
        = "exp_".data ++ a ++ "_".data ++ b ∧
      a = toHex8 ts ∧
      b = (md5hex (platform ++ natDec ts ++ contents.getD [])).take 8 ∧
      a.length = 8 ∧ b.length = 8 ∧
      (∀ c ∈ a, isLowerHexDigit c = true) ∧
      (∀ c ∈ b, isLowerHexDigit c = true) ∧
      (generateExperimentId md5hex platform ts contents).length = 21 := by
  refine ⟨toHex8 ts, (md5hex (platform ++ natDec ts ++ contents.getD [])).take 8,
    ?_, rfl, rfl, toHex8_length ts hts, ?_, toHex8_hex ts, ?_, ?_⟩
  · simp [generateExperimentId, List.append_assoc]
  · rw [List.length_take, hlen]; decide
  · intro c hc
    exact hhex _ c (List.mem_of_mem_take hc)
  · simp [generateExperimentId, List.length_append, toHex8_length ts hts,
      List.length_take, hlen]

theorem allZeroHexChars :
    ∀ c ∈ "00000000000000000000000000000000".data, isLowerHexDigit c = true := by
  decide

/-- Witness for C10 at a concrete MD5 oracle, platform, timestamp and absent
runcard file. -/
theorem claim_c10_witness :
    ∃ a b, generateExperimentId (fun _ => "00000000000000000000000000000000".data)
        "dummy".data 66 none
        = "exp_".data ++ a ++ "_".data ++ b ∧
      a = toHex8 66 ∧
      b = "00000000000000000000000000000000".data.take 8 ∧
      a.length = 8 ∧ b.length = 8 ∧
      (∀ c ∈ a, isLowerHexDigit c = true) ∧
      (∀ c ∈ b, isLowerHexDigit c = true) ∧
      (generateExperimentId (fun _ => "00000000000000000000000000000000".data)
        "dummy".data 66 none).length = 21 :=
  claim_c10_generate_experiment_id (fun _ => "00000000000000000000000000000000".data)
    "dummy".data 66 none (fun _ => rfl) (fun _ => allZeroHexChars) (by norm_num)

-- ======================================================================
-- `qpu/platforms.py`: `update_platforms_repository` and its git call;
-- `web/routes.py`: the qibocal CLI call (claim C1)
-- ======================================================================

/-- The `git pull` invocation of `update_platforms_repository`:
`subprocess.run(['git', '-C', platforms_path, 'pull', 'origin', 'main'],
check=True, capture_output=True, text=True)` — no `timeout=` argument. -/
def gitPullCall (platformsPath : String) : SubprocessCall :=
  { argv := ["git", "-C", platformsPath, "pull", "origin", "main"], timeoutSec := none }

/-- The `qq` invocation of the `/qibocal/<action>` route:
`subprocess.run(cmd, capture_output=True, text=True, timeout=300,
cwd=full_report_path)` with `cmd = ['qq', action, full_report_path]`
plus `-f` for the fit action. -/
def qibocalCliCall (action fullReportPath : String) : SubprocessCall :=
  { argv := ["qq", action, fullReportPath] ++ (if action = "fit" then ["-f"] else []),
    timeoutSec := some 300 }

/-- `update_platforms_repository(platforms_path)` as a function of whether the
path is a git repository and of the outcome of its `git pull` call (made with
`check=True`, so a non-zero return code raises `CalledProcessError`). -/
def updatePlatformsRepository (isGitRepo : Bool) (pull : ProcOutcome) : Bool :=
  if !isGitRepo then false
  else
    match pull with
    | .completed rc _ _ => rc = 0
    | .raised _ => false

/-- A subprocess call carrying a hardcoded timeout between 5 and 300 seconds,
as claim C1 requires of every `git`/`sbatch`/`qq` call. -/
def hasBoundedTimeout (c : SubprocessCall) : Prop :=
  ∃ t, c.timeoutSec = some t ∧ 5 ≤ t ∧ t ≤ 300

/-- The synchronous `git`, `sbatch` and `qq` calls claim C1 ranges over: the
`git pull` of `update_platforms_repository`, the `sbatch` of
`submit_slurm_job`, and the `qq` of the qibocal route. -/
def claimC1Calls (platformsPath jobScriptPath action reportPath : String) :
    List SubprocessCall :=
  [gitPullCall platformsPath, sbatchCall jobScriptPath,
   qibocalCliCall action reportPath]

/-- Counterexample to claim C1: at concrete paths, not every one of the three
calls carries a hardcoded timeout in [5, 300] — the `git pull` of
`update_platforms_repository` passes no timeout at all. -/
theorem claim_c1_counterexample :
    ¬ ∀ c ∈ claimC1Calls "/home/user/platforms" "/tmp/job.sh" "fit" "/data/report",
        hasBoundedTimeout c := by
  intro h
  rcases h (gitPullCall "/home/user/platforms") (by simp [claimC1Calls]) with ⟨t, ht, _, _⟩
  simp [gitPullCall] at ht

/-- Claim C1 (amended): the `sbatch` call of `submit_slurm_job` (timeout 30)
and the `qq` call of the qibocal route (timeout 300) pass hardcoded timeouts
within [5, 300]; the `git pull` performed by `update_platforms_repository`
passes no timeout argument, so that call can block its handling thread
indefinitely. -/
theorem claim_c1_amended (platformsPath jobScriptPath action reportPath : String) :
    hasBoundedTimeout (sbatchCall jobScriptPath) ∧
    (sbatchCall jobScriptPath).timeoutSec = some 30 ∧
    hasBoundedTimeout (qibocalCliCall action reportPath) ∧
    (qibocalCliCall action reportPath).timeoutSec = some 300 ∧
    (gitPullCall platformsPath).timeoutSec = none :=
  ⟨⟨30, rfl, by norm_num, by norm_num⟩, rfl,
   ⟨300, rfl, by norm_num, by norm_num⟩, rfl, rfl⟩

-- ======================================================================
-- `web/file_browser.py`: HTTP Range handling (claim C4)
-- ======================================================================

/-- Numeric value of a decimal digit string (`int(s)` for digit strings). -/
def strToNat (s : Str) : Nat :=
  s.foldl (fun n c => n * 10 + (c.toNat - 48)) 0

/-- `get_range(request)`: the regex match
`re.match('bytes=(?P<start>\d+)-(?P<end>\d+)?', range_header)`; on a match,
`(int(start), int(end) or None)`; otherwise `(0, None)`. `\d` is modelled as
an ASCII digit. -/
def getRange (header : Str) : Nat × Option Nat :=
  if leadsWith "bytes=".data header then
    let rest := header.drop 6
    let d1 := rest.takeWhile Char.isDigit
    if d1 = [] then (0, none)
    else
      match rest.drop d1.length with
      | c :: rest2 =>
        if c = '-' then
          let d2 := rest2.takeWhile Char.isDigit
          (strToNat d1, if d2 = [] then none else some (strToNat d2))
        else (0, none)
      | [] => (0, none)
  else (0, none)

/-- Whether the Range header matches the pattern
`bytes=(\d+)-(\d+)?` (claim-side reading of "a Range header not matching that
pattern"). -/
def rangeHeaderMatches (header : Str) : Bool :=
  leadsWith "bytes=".data header &&
  !((header.drop 6).takeWhile Char.isDigit).isEmpty &&
  ((header.drop 6).drop ((header.drop 6).takeWhile Char.isDigit).length).head? = some '-'

/-- `fd.read(length)` after `fd.seek(start)`: a negative length reads to the
end of the file; a non-negative one reads at most that many bytes. -/
def pyFileRead (remaining : List Nat) (length : Int) : List Nat :=
  if length < 0 then remaining else remaining.take length.toNat

structure RangeResponse where
  status : Nat
  body : List Nat
  contentRange : Str
deriving DecidableEq

/-- `partial_response(path, start, end)` as a function of the file's bytes:
the end is defaulted to `file_size - 1` and clamped, `length = end - start + 1`
(Python `int` arithmetic, so possibly negative), the body is read from offset
`start`, and the `assert len(bytes_data) == length` failing is modelled as
`none` (an `AssertionError` escapes the handler). -/
def partialResponse (file : List Nat) (start : Nat) (endOpt : Option Nat) :
    Option RangeResponse :=
  let fileSize : Int := (file.length : Int)
  let e0 : Int := match endOpt with | none => fileSize - 1 | some e => (e : Int)
  let e : Int := min e0 (fileSize - 1)
  let length : Int := e - (start : Int) + 1
  let data : List Nat := pyFileRead (file.drop start) length
  if (data.length : Int) = length then
    some { status := 206, body := data,
           contentRange := "bytes ".data ++ intDec (start : Int) ++ "-".data
             ++ intDec e ++ "/".data ++ intDec fileSize }
  else none

/-- `PathView.get` on an existing file with a `Range` header:
`start, end = get_range(request); response = partial_response(path, start, end)`. -/
def pathViewRangeGet (file : List Nat) (header : Str) : Option RangeResponse :=
  partialResponse file (getRange header).1 (getRange header).2

theorem intDec_natCast (n : Nat) : intDec (n : Int) = natDec n := by
  simp [intDec]

theorem partialResponse_some (file : List Nat) (start : Nat) (endOpt : Option Nat) (E : Nat)
    (hsz : 1 ≤ file.length) (hstart : start ≤ file.length - 1)
    (hE : E = min (endOpt.getD (file.length - 1)) (file.length - 1))
    (hstartE : start ≤ E + 1) :
    partialResponse file start endOpt = some {
      status := 206,
      body := (file.drop start).take (E + 1 - start),
      contentRange := "bytes ".data ++ natDec start ++ "-".data ++ natDec E
        ++ "/".data ++ natDec file.length } := by
  have hES : E ≤ file.length - 1 := by rw [hE]; exact min_le_right _ _
  rcases endOpt with _ | ev
  · simp only [Option.getD, min_self] at hE
    subst hE
    have h1 : ((file.length : Int) - 1) ⊓ ((file.length : Int) - 1)
        = ((file.length - 1 : Nat) : Int) := by omega
    have hlen : ((file.length - 1 : Nat) : Int) - (start : Int) + 1
        = ((file.length - 1 + 1 - start : Nat) : Int) := by omega
    have hnneg : ¬ ((file.length - 1 + 1 - start : Nat) : Int) < 0 := by omega
    have hdata : (List.take (file.length - 1 + 1 - start) (List.drop start file)).length
        = file.length - 1 + 1 - start := by
      simp only [List.length_take, List.length_drop]; omega
    simp only [partialResponse, h1, hlen, pyFileRead, if_neg hnneg]
    rw [if_pos (by exact_mod_cast hdata)]
    simp [intDec_natCast]
  · simp only [Option.getD] at hE
    have h1 : ((ev : Int)) ⊓ ((file.length : Int) - 1) = (E : Int) := by
      rw [hE]; omega
    have hlen : (E : Int) - (start : Int) + 1 = ((E + 1 - start : Nat) : Int) := by
      omega
    have hnneg : ¬ ((E + 1 - start : Nat) : Int) < 0 := by omega
    have hdata : (List.take (E + 1 - start) (List.drop start file)).length
        = E + 1 - start := by
      simp only [List.length_take, List.length_drop]; omega
    simp only [partialResponse, h1, hlen, pyFileRead, if_neg hnneg]
    rw [if_pos (by exact_mod_cast hdata)]
    simp [intDec_natCast]

/-- When the parsed end lies at least two below the start, the computed
length is negative: `fd.read` returns the whole remaining tail, whose length
cannot equal the negative `length`, so the `assert` in `partial_response`
fails and no response is produced. -/
theorem partialResponse_assert_fails (file : List Nat) (start e : Nat)
    (hlt : e + 2 ≤ start) :
    partialResponse file start (some e) = none := by
  have hneg : (e : Int) ⊓ ((file.length : Int) - 1) - (start : Int) + 1 < 0 := by
    have : (e : Int) ⊓ ((file.length : Int) - 1) ≤ (e : Int) := min_le_left _ _
    omega
  have hlen : ¬ (((file.drop start).length : Int)
      = (e : Int) ⊓ ((file.length : Int) - 1) - (start : Int) + 1) := by
    simp only [List.length_drop]
    omega
  simp only [partialResponse, pyFileRead, if_pos hneg]
  exact if_neg hlen

/-- Counterexample to claim C4: for the 3-byte file `[1, 2, 3]` and the
header `bytes=2-0` (which matches the pattern with start 2 ≤ S-1 and end 0),
the code does not return a 206 response at all: the computed length is
negative, `fd.read` returns the whole tail, and the
`assert len(bytes_data) == length` fails (modelled as `none`), so the claimed
body and Content-Range do not exist. -/
theorem claim_c4_counterexample :
    getRange "bytes=2-0".data = (2, some 0) ∧
    (2 : Nat) ≤ ([1, 2, 3] : List Nat).length - 1 ∧
    pathViewRangeGet [1, 2, 3] "bytes=2-0".data = none := by
  refine ⟨by decide, by decide, by decide⟩

/-- Claim C4 (amended): for an existing file of size `S ≥ 1` and a Range
header parsed to `(start, end?)` with `start ≤ S - 1` and (when an end is
given) `end ≥ start - 1`, the file browser returns a 206 response whose body
is exactly the file bytes from `start` through `min(end, S-1)` (the whole
tail when the end is absent; empty when `end = start - 1`), of length
`min(end, S-1) + 1 - start`, with Content-Range
`bytes <start>-<clamped end>/<S>`; when `end ≤ start - 2` the computed length
is negative, `fd.read` returns the whole tail, the assert in
`partial_response` fails and no 206 is produced (this is where the original
claim fails, see the counterexample); and a header not matching
`bytes=(\d+)-(\d+)?` is treated as start 0 with no end. -/
theorem claim_c4_range_requests (file : List Nat) (header : Str) :
    (∀ start endOpt, getRange header = (start, endOpt) →
      1 ≤ file.length →
      start ≤ file.length - 1 →
      (∀ e, endOpt = some e → start ≤ e + 1) →
      ∃ resp, pathViewRangeGet file header = some resp ∧
        resp.status = 206 ∧
        resp.body = (file.drop start).take
          (min (endOpt.getD (file.length - 1)) (file.length - 1) + 1 - start) ∧
        resp.body.length
          = min (endOpt.getD (file.length - 1)) (file.length - 1) + 1 - start ∧
        resp.contentRange = "bytes ".data ++ natDec start ++ "-".data
          ++ natDec (min (endOpt.getD (file.length - 1)) (file.length - 1))
          ++ "/".data ++ natDec file.length) ∧
    (∀ start e, getRange header = (start, some e) →
      1 ≤ file.length →
      start ≤ file.length - 1 →
      e + 2 ≤ start →
      pathViewRangeGet file header = none) ∧
    (rangeHeaderMatches header = false → getRange header = (0, none)) := by
  refine ⟨?_, ?_, ?_⟩
  · intro start endOpt hparse hsz hstart hend
    have hstartE : start ≤ min (endOpt.getD (file.length - 1)) (file.length - 1) + 1 := by
      rcases endOpt with _ | ev
      · simp only [Option.getD]; omega
      · have := hend ev rfl
        simp only [Option.getD]
        omega
    unfold pathViewRangeGet
    rw [hparse]
    simp only
    rw [partialResponse_some file start endOpt _ hsz hstart rfl hstartE]
    refine ⟨_, rfl, rfl, rfl, ?_, rfl⟩
    simp only [List.length_take, List.length_drop]
    have hES : min (endOpt.getD (file.length - 1)) (file.length - 1)
        ≤ file.length - 1 := min_le_right _ _
    omega
  · intro start e hparse hsz hstart hlt
    unfold pathViewRangeGet
    rw [hparse]
    exact partialResponse_assert_fails file start e hlt
  · intro hm
    unfold rangeHeaderMatches at hm
    unfold getRange
    by_cases h1 : leadsWith "bytes=".data header = true
    · rw [if_pos h1]
      rw [h1, Bool.true_and] at hm
      by_cases h2 : (header.drop 6).takeWhile Char.isDigit = []
      · simp [h2]
      · have hne : ¬ ((header.drop 6).drop
            ((header.drop 6).takeWhile Char.isDigit).length).head? = some '-' := by
          intro hh
          rcases Bool.and_eq_false_iff.mp hm with hl | hr
          · simp [List.isEmpty_iff, h2] at hl
          · exact absurd hh (of_decide_eq_false hr)
        simp only [if_neg h2]
        rcases hd : (header.drop 6).drop ((header.drop 6).takeWhile Char.isDigit).length
          with _ | ⟨c, r⟩
        · rfl
        · have hc : ¬ c = '-' := fun hceq => hne (by rw [hd, hceq]; rfl)
          simp [hc]
    · rw [if_neg h1]

-- ======================================================================
-- `qpu/monitoring.py`: `get_qibo_versions` (claim C8)
-- ======================================================================

/-- A parsed JSON value, as `json.loads` produces it (numbers collapsed to
integers; Python `bool` is kept separate because it supports arithmetic). -/
inductive PyJson where
  | jnull
  | jbool (b : Bool)
  | jnum (n : Int)
  | jstr (s : Str)
  | jarr (xs : List PyJson)
  | jobj (fields : List (String × PyJson))

/-- Python `dict.get(k, default)` on a parsed JSON object. -/
def jsonGet (fields : List (String × PyJson)) (k : String) (default : PyJson) : PyJson :=
  match fields.find? (fun p => p.1 = k) with
  | some p => p.2
  | none => default

/-- What `get_qibo_versions` returns: the versions value, the `from_cache`
flag, the serialized `cookie_data` (kept structured rather than as a JSON
string; present only on the fresh path), and `cached_at`. -/
structure QVOut where
  versions : PyJson
  fromCache : Bool
  cookieData : Option PyJson
  cachedAt : Int

/-- The fresh-fetch result of `get_qibo_versions`: the freshly probed
versions dictionary with `from_cache` False and `cookie_data` carrying the
versions and the current timestamp. -/
def freshVersionsResult (now : Int) (fresh : PyJson) : Except Str QVOut :=
  .ok { versions := fresh, fromCache := false,
        cookieData := some (.jobj [("versions", fresh), ("timestamp", .jnum now)]),
        cachedAt := now }

/-- `get_qibo_versions(force_refresh, request)` as a function of the parsed
`qibo_versions` cookie (`none`: no request or no cookie; `some none`:
`json.loads` raised `JSONDecodeError`, which the source catches; `some (some
j)`: the parsed JSON value), the current time, and the freshly probed package
versions (`fresh`, an oracle for the importlib probing loop). A cookie that
parses to a non-object raises `AttributeError` at `cookie_data.get`
(uncaught); an object whose `timestamp` is neither a number nor a bool
raises `TypeError` at `current_time - cached_time` (uncaught). -/
def getQiboVersions (forceRefresh : Bool) (cookie : Option (Option PyJson))
    (now : Int) (fresh : PyJson) : Except Str QVOut :=
  match forceRefresh, cookie with
  | false, some parsed =>
    match parsed with
    | none => freshVersionsResult now fresh
    | some j =>
      match j with
      | .jobj fields =>
        match jsonGet fields "timestamp" (.jnum 0) with
        | .jnum ts =>
          if now - ts < 86400 then
            .ok { versions := jsonGet fields "versions" (.jobj []), fromCache := true,
                  cookieData := none, cachedAt := ts }
          else freshVersionsResult now fresh
        | .jbool b =>
          if now - (if b then 1 else 0) < 86400 then
            .ok { versions := jsonGet fields "versions" (.jobj []), fromCache := true,
                  cookieData := none, cachedAt := if b then 1 else 0 }
          else freshVersionsResult now fresh
        | _ => .error "TypeError: unsupported operand type(s) for -".data
      | _ => .error "AttributeError: object has no attribute get".data
  | _, _ => freshVersionsResult now fresh

/-- Counterexample to claim C8: a request carrying a `qibo_versions` cookie
that is valid JSON but not an object (here the JSON array `[]`) does not lead
to a fresh fetch with `from_cache` False — `cookie_data.get` raises an
uncaught `AttributeError` instead. -/
theorem claim_c8_counterexample :
    getQiboVersions false (some (some (.jarr []))) 1000000 (.jobj [])
      = .error "AttributeError: object has no attribute get".data ∧
    ∀ out, getQiboVersions false (some (some (.jarr []))) 1000000 (.jobj []) ≠ .ok out := by
  refine ⟨rfl, ?_⟩
  intro out h
  have h' : Except.error "AttributeError: object has no attribute get".data
      = Except.ok (ε := Str) out := h
  exact Except.noConfusion h'

/-- Claim C8 (amended): with `force_refresh` False, a cookie parsing to a
JSON object whose `timestamp` is a number less than 24 hours old yields the
cookie's `versions` value with `from_cache` True and no fresh lookup — also
when the object has no `versions` key, in which case the cached result
carries the `.get` default, an empty dict, rather than triggering a fresh
fetch; an absent cookie, a cookie failing JSON parsing, or an expired object
cookie yields the freshly probed versions with `from_cache` False and
`cookie_data` timestamped now; a missing `timestamp` key is read as 0 via
`.get`, so (whenever the current time is at least 24 hours past the epoch)
it falls on the expired path and a fresh fetch occurs; and a cookie parsing
to a non-object JSON value instead raises an uncaught `AttributeError` (the
original claim counted it as "unparsable" and asserted a fresh fetch). -/
theorem claim_c8_get_qibo_versions (now ts : Int) (fresh : PyJson)
    (fields : List (String × PyJson)) :
    (jsonGet fields "timestamp" (.jnum 0) = .jnum ts → now - ts < 86400 →
      getQiboVersions false (some (some (.jobj fields))) now fresh
        = .ok { versions := jsonGet fields "versions" (.jobj []), fromCache := true,
                cookieData := none, cachedAt := ts }) ∧
    (jsonGet fields "timestamp" (.jnum 0) = .jnum ts → 86400 ≤ now - ts →
      getQiboVersions false (some (some (.jobj fields))) now fresh
        = freshVersionsResult now fresh) ∧
    (jsonGet fields "timestamp" (.jnum 0) = .jnum ts → now - ts < 86400 →
      fields.find? (fun p => p.1 = "versions") = none →
      getQiboVersions false (some (some (.jobj fields))) now fresh
        = .ok { versions := .jobj [], fromCache := true,
                cookieData := none, cachedAt := ts }) ∧
    (fields.find? (fun p => p.1 = "timestamp") = none → 86400 ≤ now →
      getQiboVersions false (some (some (.jobj fields))) now fresh
        = freshVersionsResult now fresh) ∧
    (getQiboVersions false none now fresh = freshVersionsResult now fresh) ∧
    (getQiboVersions false (some none) now fresh = freshVersionsResult now fresh) ∧
    (∀ xs, getQiboVersions false (some (some (.jarr xs))) now fresh
      = .error "AttributeError: object has no attribute get".data) ∧
    (∀ s, getQiboVersions false (some (some (.jstr s))) now fresh
      = .error "AttributeError: object has no attribute get".data) := by
  refine ⟨?_, ?_, ?_, ?_, rfl, rfl, fun _ => rfl, fun _ => rfl⟩
  · intro h1 h2
    simp only [getQiboVersions]
    rw [h1]
    exact if_pos h2
  · intro h1 h2
    simp only [getQiboVersions]
    rw [h1]
    exact if_neg (by omega)
  · intro h1 h2 h3
    simp only [getQiboVersions]
    rw [h1]
    simp only [jsonGet, h3]
    exact if_pos h2
  · intro h1 h2
    simp only [getQiboVersions, jsonGet, h1]
    exact if_neg (by omega)

-- ======================================================================
-- `qpu/platforms.py`: stash and branch-switch result dictionaries (claim C9)
-- ======================================================================

/-- A value stored in one of the result dictionaries of `qpu/platforms.py`. -/
inductive PyVal where
  | vbool (b : Bool)
  | vstr (s : Str)
  | vnone
deriving DecidableEq

/-- A Python dict with string keys, in insertion order. -/
abbrev PyDict := List (String × PyVal)

/-- `d.get(k)`-style lookup: the value stored under `k`, if any. -/
def dfind (d : PyDict) (k : String) : Option PyVal :=
  match d.find? (fun p => p.1 = k) with
  | some p => some p.2
  | none => none

/-- `d[k] = v`: replace the value under `k` keeping insertion order, or
append. -/
def dset : PyDict → String → PyVal → PyDict
  | [], k, v => [(k, v)]
  | (k', v') :: t, k, v => if k' = k then (k, v) :: t else (k', v') :: dset t k v

/-- Python truthiness of a stored value. -/
def truthy : PyVal → Bool
  | .vbool b => b
  | .vstr s => !s.isEmpty
  | .vnone => false

/-- An exception from a subprocess call: `CalledProcessError` (carrying
`e.stderr if e.stderr else str(e)`; the `str(e)` fallback for an empty stderr
is abstracted as a fixed text) or any other exception. -/
inductive PyErr where
  | calledProcess (stderrOrStr : Str)
  | other (msg : Str)
deriving DecidableEq

/-- A `subprocess.run(..., check=True)` call: a non-zero return code raises
`CalledProcessError`; on success the captured stdout is returned. -/
def runChecked (o : ProcOutcome) : Except PyErr Str :=
  match o with
  | .completed rc out err =>
    if rc = 0 then .ok out
    else .error (.calledProcess (if err.isEmpty then "CalledProcessError".data else err))
  | .raised m => .error (.other m)

/-- The error dictionaries of `stash_changes`'s two `except` clauses. -/
def stashErrDict (e : PyErr) : PyDict :=
  match e with
  | .calledProcess s =>
    [("success", .vbool false), ("error", .vstr ("Failed to stash changes: ".data ++ s))]
  | .other m =>
    [("success", .vbool false), ("error", .vstr ("Unexpected error during stash: ".data ++ m))]

/-- Oracle outcomes for the three checked git calls of `stash_changes`. -/
structure StashChangesEnv where
  status : ProcOutcome
  push : ProcOutcome
  list1 : ProcOutcome

/-- `stash_changes(platforms_path, stash_message)` as a function of whether
the path is a git repository and of its three git call outcomes. -/
def stashChanges (isGitRepo : Bool) (env : StashChangesEnv) : PyDict :=
  if !isGitRepo then
    [("success", .vbool false), ("error", .vstr "Not a git repository".data)]
  else
    match runChecked env.status with
    | .error e => stashErrDict e
    | .ok statusOut =>
      if (pyStrip statusOut).isEmpty then
        [("success", .vbool false), ("error", .vstr "No changes to stash".data)]
      else
        match runChecked env.push with
        | .error e => stashErrDict e
        | .ok _ =>
          match runChecked env.list1 with
          | .error e => stashErrDict e
          | .ok listOut =>
            let stashName :=
              if listOut.isEmpty then "stash@\x7b0\x7d".data
              else pyStrip ((splitChar ':' listOut).headD [])
            [("success", .vbool true), ("stash_name", .vstr stashName)]

/-- The error dictionaries of `apply_latest_stash`'s two `except` clauses. -/
def applyStashErrDict (e : PyErr) : PyDict :=
  match e with
  | .calledProcess s =>
    [("success", .vbool false), ("error", .vstr ("Failed to apply stash: ".data ++ s))]
  | .other m =>
    [("success", .vbool false), ("error", .vstr ("Unexpected error applying stash: ".data ++ m))]

/-- Oracle outcomes for the git calls of `apply_latest_stash`: the checked
`git stash list` and the unchecked `git stash pop`/`apply`. -/
structure ApplyStashEnv where
  list : ProcOutcome
  apply : ProcOutcome

/-- `apply_latest_stash(platforms_path, pop)` as a function of whether the
path is a git repository and of its two git call outcomes. Note the
conflicts branch: a non-zero return code of the stash application yields
`success: True` together with `conflicts: True` and an `error` message. -/
def applyLatestStash (isGitRepo : Bool) (env : ApplyStashEnv) (_pop : Bool) : PyDict :=
  if !isGitRepo then
    [("success", .vbool false), ("error", .vstr "Not a git repository".data)]
  else
    match runChecked env.list with
    | .error e => applyStashErrDict e
    | .ok listOut =>
      if (pyStrip listOut).isEmpty then
        [("success", .vbool false), ("error", .vstr "No stashes available".data)]
      else
        let latest := (splitChar ':' ((splitChar '\n' listOut).headD [])).headD []
        match env.apply with
        | .completed rc _ errOut =>
          if rc ≠ 0 then
            [("success", .vbool true), ("stash_applied", .vstr latest),
             ("conflicts", .vbool true),
             ("error", .vstr ("Applied with conflicts: ".data ++ errOut))]
          else
            [("success", .vbool true), ("stash_applied", .vstr latest),
             ("conflicts", .vbool false)]
        | .raised m => applyStashErrDict (.other m)

/-- The message the two outer `except` clauses of `switch_repository_branch`
format for `result['error']`. -/
def switchErrText (e : PyErr) : Str :=
  match e with
  | .calledProcess s => "Failed to switch branch: ".data ++ s
  | .other m => "Unexpected error switching branch: ".data ++ m

/-- `result['error'] = ...` as the two outer `except` clauses of
`switch_repository_branch` perform it on the current result dictionary. -/
def switchErrSet (result : PyDict) (e : PyErr) : PyDict :=
  dset result "error" (.vstr (switchErrText e))

/-- Oracle outcomes for the git calls of `switch_repository_branch`, in
source order: `git fetch --all` (checked), `git status --porcelain`
(unchecked), the calls of `stash_changes` when local changes are stashed,
`git branch --list` and `git branch -r --list` (unchecked), the three
possible checkouts (checked), `git pull` (checked, `CalledProcessError`
swallowed), and the calls of `apply_latest_stash` when `auto_apply_stash`. -/
structure SwitchEnv where
  fetch : ProcOutcome
  status : ProcOutcome
  stashCh : StashChangesEnv
  localCheck : ProcOutcome
  remoteCheck : ProcOutcome
  checkoutLocal : ProcOutcome
  checkoutTrack : ProcOutcome
  checkoutNew : ProcOutcome
  pull : ProcOutcome
  applyStash : ApplyStashEnv

/-- The local-changes handling step of `switch_repository_branch` (the
`if has_local_changes` block for `handle_changes == 'stash'`): `.error d`
models an early `return` of the dictionary `d`. -/
def switchStashStep (result0 : PyDict) (doStash : Bool) (env : StashChangesEnv) :
    Except PyDict PyDict :=
  if doStash then
    let sres := stashChanges true env
    if truthy ((dfind sres "success").getD .vnone) then
      .ok (dset (dset result0 "changes_handled" (.vstr "stashed".data))
        "stash_created" ((dfind sres "stash_name").getD .vnone))
    else
      .error (dset result0 "error" (.vstr ("Failed to stash changes: ".data ++
        (match dfind sres "error" with
         | some (.vstr s) => s
         | _ => "Unknown error".data))))
  else .ok result0

/-- The checkout step of `switch_repository_branch`: checkout of the local
branch, of a tracking branch, or of a new branch, or the branch-not-found
error; `.error d` models an early `return` of the dictionary `d`. -/
def switchCheckoutStep (result1 : PyDict) (existsLocally existsRemotely create : Bool)
    (branchName : Str) (col cot con : ProcOutcome) : Except PyDict Unit :=
  if existsLocally then
    match runChecked col with
    | .error e => .error (switchErrSet result1 e)
    | .ok _ => .ok ()
  else if existsRemotely then
    match runChecked cot with
    | .error e => .error (switchErrSet result1 e)
    | .ok _ => .ok ()
  else if create then
    match runChecked con with
    | .error e => .error (switchErrSet result1 e)
    | .ok _ => .ok ()
  else
    .error (dset result1 "error" (.vstr ("Branch \x27".data ++ branchName
      ++ "\x27 not found locally or remotely".data)))

/-- The pull step of `switch_repository_branch`: `git pull` inside a `try`
that swallows `CalledProcessError`; any other exception reaches the outer
handler (`.error d` models the early `return` it causes). -/
def switchPullStep (result1 : PyDict) (doPull : Bool) (pull : ProcOutcome) :
    Except PyDict Unit :=
  if doPull then
    match pull with
    | .completed _ _ _ => .ok ()
    | .raised m => .error (switchErrSet result1 (.other m))
  else .ok ()

/-- `switch_repository_branch(platforms_path, branch_name,
create_if_not_exists, handle_changes, auto_apply_stash)` as a function of its
git call outcomes. `Except.error` models an exception escaping the function:
when `git fetch` or `git status` raises, the `except` clauses assign to
`result['error']` before `result` is defined, so an `UnboundLocalError`
propagates. After `result['success'] = True`, a failed automatic stash
application reaches `stash_result['had_stashes']`, a key `apply_latest_stash`
never returns, so the `KeyError` lands in the generic `except` clause, which
records the error on the already-successful result. -/
def switchRepositoryBranch (isGitRepo : Bool) (branchName : Str)
    (createIfNotExists : Bool) (handleChanges : Str) (autoApplyStash : Bool)
    (env : SwitchEnv) : Except Str PyDict :=
  if !isGitRepo then
    .ok [("success", .vbool false), ("error", .vstr "Not a git repository".data)]
  else
    match runChecked env.fetch with
    | .error _ => .error "UnboundLocalError: local variable result referenced before assignment".data
    | .ok _ =>
      match env.status with
      | .raised _ => .error "UnboundLocalError: local variable result referenced before assignment".data
      | .completed _ statusOut _ =>
        let hasChanges := !(pyStrip statusOut).isEmpty
        let result0 : PyDict :=
          [("success", .vbool false), ("has_changes", .vbool hasChanges),
           ("changes_handled", .vnone), ("stash_created", .vnone),
           ("stash_applied", .vnone), ("stash_restored", .vbool false)]
        if hasChanges && (handleChanges = "fail".data) then
          .ok (dset result0 "error"
            (.vstr "Local changes detected. Please choose how to handle them.".data))
        else if hasChanges && (handleChanges = "commit".data) then
          .ok (dset result0 "error"
            (.vstr "Commit option requires explicit commit message handling".data))
        else
          match switchStashStep result0 (hasChanges && (handleChanges = "stash".data)) env.stashCh with
          | .error d => .ok d
          | .ok result1 =>
            match env.localCheck with
            | .raised m => .ok (switchErrSet result1 (.other m))
            | .completed _ localOut _ =>
              match env.remoteCheck with
              | .raised m => .ok (switchErrSet result1 (.other m))
              | .completed _ remoteOut _ =>
                let existsLocally := !(pyStrip localOut).isEmpty
                let existsRemotely := !(pyStrip remoteOut).isEmpty
                match switchCheckoutStep result1 existsLocally existsRemotely
                    createIfNotExists branchName env.checkoutLocal env.checkoutTrack
                    env.checkoutNew with
                | .error d => .ok d
                | .ok _ =>
                  match switchPullStep result1 (existsLocally || existsRemotely) env.pull with
                  | .error d => .ok d
                  | .ok _ =>
                    let result2 := dset result1 "success" (.vbool true)
                    if autoApplyStash then
                      let sres := applyLatestStash true env.applyStash true
                      if truthy ((dfind sres "success").getD .vnone) then
                        .ok (dset (dset result2 "stash_applied"
                          ((dfind sres "stash_applied").getD .vnone))
                          "stash_restored" (.vbool true))
                      else
                        .ok (dset result2 "error"
                          (.vstr "Unexpected error switching branch: \x27had_stashes\x27".data))
                    else .ok result2

theorem switchStashStep_err (r0 : PyDict) (b : Bool) (env : StashChangesEnv) (d : PyDict)
    (h : switchStashStep r0 b env = .error d) :
    ∃ v, d = dset r0 "error" (.vstr v) := by
  simp only [switchStashStep] at h
  repeat' split at h
  all_goals first
    | (injection h with h2; exact ⟨_, h2.symm⟩)
    | exact Except.noConfusion h

theorem switchStashStep_ok (r0 : PyDict) (b : Bool) (env : StashChangesEnv) (r1 : PyDict)
    (h : switchStashStep r0 b env = .ok r1) :
    r1 = r0 ∨ ∃ v, r1 = dset (dset r0 "changes_handled" (.vstr "stashed".data))
      "stash_created" v := by
  simp only [switchStashStep] at h
  repeat' split at h
  all_goals first
    | (injection h with h2; exact Or.inl h2.symm)
    | (injection h with h2; exact Or.inr ⟨_, h2.symm⟩)
    | exact Except.noConfusion h

theorem switchCheckoutStep_err (r1 : PyDict) (el er c : Bool) (bn : Str)
    (col cot con : ProcOutcome) (d : PyDict)
    (h : switchCheckoutStep r1 el er c bn col cot con = .error d) :
    ∃ v, d = dset r1 "error" (.vstr v) := by
  simp only [switchCheckoutStep, switchErrSet] at h
  repeat' split at h
  all_goals first
    | (injection h with h2; exact ⟨_, h2.symm⟩)
    | exact Except.noConfusion h

theorem switchPullStep_err (r1 : PyDict) (b : Bool) (pull : ProcOutcome) (d : PyDict)
    (h : switchPullStep r1 b pull = .error d) :
    ∃ v, d = dset r1 "error" (.vstr v) := by
  simp only [switchPullStep, switchErrSet] at h
  repeat' split at h
  all_goals first
    | (injection h with h2; exact ⟨_, h2.symm⟩)
    | exact Except.noConfusion h

/-- Counterexample to claim C9: when the repository has a stash and `git
stash pop` exits non-zero (a conflict), `apply_latest_stash` returns a
dictionary carrying both `success: True` and an `error` message. -/
theorem claim_c9_counterexample :
    dfind (applyLatestStash true
      ⟨.completed 0 "stashA: WIP on main".data "".data,
       .completed 1 "".data "CONFLICT (content): merge conflict".data⟩ true)
      "success" = some (.vbool true) ∧
    dfind (applyLatestStash true
      ⟨.completed 0 "stashA: WIP on main".data "".data,
       .completed 1 "".data "CONFLICT (content): merge conflict".data⟩ true)
      "error"
      = some (.vstr ("Applied with conflicts: CONFLICT (content): merge conflict".data)) := by
  constructor <;> rfl

/-- Claim C9 (amended): `apply_latest_stash` returns an `error` key together
with `success: True` exactly when the stash applied with conflicts
(`conflicts: True`); in every other case an `error` key implies `success:
False`. `switch_repository_branch` with `auto_apply_stash` False never
returns a dictionary with both `success: True` and an `error` key (with
`auto_apply_stash` True it can, via the `had_stashes` `KeyError` handler). -/
theorem claim_c9_error_key_invariant :
    (∀ (g : Bool) (env : ApplyStashEnv) (p : Bool),
      dfind (applyLatestStash g env p) "error" ≠ none →
        dfind (applyLatestStash g env p) "success" = some (.vbool false) ∨
        dfind (applyLatestStash g env p) "conflicts" = some (.vbool true)) ∧
    (∀ (g : Bool) (env : ApplyStashEnv) (p : Bool),
      dfind (applyLatestStash g env p) "conflicts" = some (.vbool true) →
        dfind (applyLatestStash g env p) "success" = some (.vbool true) ∧
        dfind (applyLatestStash g env p) "error" ≠ none) ∧
    (∀ (g : Bool) (b : Str) (c : Bool) (hc : Str) (env : SwitchEnv) (d : PyDict),
      switchRepositoryBranch g b c hc false env = .ok d →
      dfind d "error" ≠ none → dfind d "success" = some (.vbool false)) := by
  refine ⟨?_, ?_, ?_⟩
  · intro g env p
    rcases env with ⟨lst, app⟩
    cases g
    · simp [applyLatestStash, dfind]
    · cases lst with
      | raised m => simp [applyLatestStash, runChecked, applyStashErrDict, dfind]
      | completed rc out err =>
        by_cases hrc : rc = 0
        · by_cases hse : (pyStrip out).isEmpty
          · simp [applyLatestStash, runChecked, hrc, hse, dfind]
          · cases app with
            | raised m2 =>
              simp [applyLatestStash, runChecked, hrc, hse, applyStashErrDict, dfind]
            | completed rc2 out2 err2 =>
              by_cases h2 : rc2 = 0
              · simp [applyLatestStash, runChecked, hrc, hse, h2, dfind]
              · simp [applyLatestStash, runChecked, hrc, hse, h2, dfind]
        · by_cases he : err.isEmpty
          · simp [applyLatestStash, runChecked, hrc, he, applyStashErrDict, dfind]
          · simp [applyLatestStash, runChecked, hrc, he, applyStashErrDict, dfind]
  · intro g env p
    rcases env with ⟨lst, app⟩
    cases g
    · simp [applyLatestStash, dfind]
    · cases lst with
      | raised m => simp [applyLatestStash, runChecked, applyStashErrDict, dfind]
      | completed rc out err =>
        by_cases hrc : rc = 0
        · by_cases hse : (pyStrip out).isEmpty
          · simp [applyLatestStash, runChecked, hrc, hse, dfind]
          · cases app with
            | raised m2 =>
              simp [applyLatestStash, runChecked, hrc, hse, applyStashErrDict, dfind]
            | completed rc2 out2 err2 =>
              by_cases h2 : rc2 = 0
              · simp [applyLatestStash, runChecked, hrc, hse, h2, dfind]
              · simp [applyLatestStash, runChecked, hrc, hse, h2, dfind]
        · by_cases he : err.isEmpty
          · simp [applyLatestStash, runChecked, hrc, he, applyStashErrDict, dfind]
          · simp [applyLatestStash, runChecked, hrc, he, applyStashErrDict, dfind]
  · intro g b c hc env d hok herr
    simp only [switchRepositoryBranch] at hok
    repeat' split at hok
    all_goals (try (first
      | (injection hok with h; subst h; simp [dfind, dset, switchErrSet]; done)
      | (injection hok with h; subst h; refine absurd herr ?_; simp [dfind, dset]; done)
      | exact Except.noConfusion hok))
    all_goals (injection hok with h; subst h)
    all_goals (try (rcases switchStashStep_err _ _ _ _ (by assumption) with ⟨v, h1⟩; subst h1))
    all_goals (try (rcases switchStashStep_ok _ _ _ _ (by assumption) with h1 | ⟨v2, h1⟩ <;> subst h1))
    all_goals (try (rcases switchCheckoutStep_err _ _ _ _ _ _ _ _ _ (by assumption) with ⟨v3, h1⟩; subst h1))
    all_goals (try (rcases switchPullStep_err _ _ _ _ (by assumption) with ⟨v4, h1⟩; subst h1))
    all_goals (first
      | (exact absurd (by assumption : false = true) Bool.false_ne_true)
      | (simp [dfind, dset, switchErrSet]; done)
      | (refine absurd herr ?_; simp [dfind, dset, switchErrSet]; done))

-- ======================================================================
-- `experiments/job_submission.py`: `submit_experiment` (claim C3)
-- ======================================================================

/-- Python truthiness of an optional string (`None` and `''` are falsy). -/
def optTruthy (o : Option Str) : Bool :=
  match o with
  | some s => !s.isEmpty
  | none => false

/-- Python `a or b` on optional strings. -/
def pyOr (a b : Option Str) : Option Str :=
  if optTruthy a then a else b

/-- The fields of the parsed runcard that `submit_experiment` reads. -/
structure Runcard where
  platform : Str
  partition : Option Str
  environment : Option Str

/-- The two file writes of `submit_experiment` that claim C3 is about:
`save_experiment_metadata` writing `experiment_metadata.json` into the
experiment directory, and the write of the output directory path into the
`last_report_path` pointer file. -/
inductive WriteEvent where
  | metadataFile (experimentDir : Str) (jobId : Option Str) (outputDir : Str)
  | lastReportFile (content : Str)
deriving DecidableEq

/-- Oracle inputs of `submit_experiment`: which of `runcard_path` /
`runcard_data` were passed, the outcome of preparing and parsing the runcard
(`.error` models an exception reaching the outer handler), the generated
experiment id (`generate_experiment_id`, modelled separately), the results
of `get_platforms_path` and `get_partition`, the `environment` argument and
config value, the data directory, and the outcome of the `sbatch` call. -/
structure SubmitEnv where
  runcardPathGiven : Bool
  runcardDataGiven : Bool
  prep : Except Str Runcard
  experimentId : Str
  platformsBase : Option Str
  queuesPartition : Option Str
  envArg : Option Str
  configEnvironment : Option Str
  dataDir : Str
  sbatch : RunOutcome

/-- The content of the `last_report_path` pointer file after a list of write
events, starting from its previous content. -/
def applyLastReport (writes : List WriteEvent) (prev : Option Str) : Option Str :=
  writes.foldl (fun acc w => match w with | .lastReportFile c => some c | _ => acc) prev

structure SubmitResult where
  success : Bool
  message : Str
  experimentId : Option Str
  jobId : Option Str
deriving DecidableEq

/-- `submit_experiment(runcard_path, runcard_data, config, environment)` as a
function of its oracle environment, returning the result dictionary's fields,
the file writes performed, and whether `submit_slurm_job` was invoked. File
writes themselves are modelled as always succeeding. -/
def submitExperiment (env : SubmitEnv) : SubmitResult × List WriteEvent × Bool :=
  if !env.runcardPathGiven && !env.runcardDataGiven then
    (⟨false, "Either runcard_path or runcard_data must be provided".data, none, none⟩,
     [], false)
  else if env.runcardPathGiven && env.runcardDataGiven then
    (⟨false, "Cannot provide both runcard_path and runcard_data, choose one".data, none, none⟩,
     [], false)
  else
    match env.prep with
    | .error m => (⟨false, "Error submitting experiment: ".data ++ m, none, none⟩, [], false)
    | .ok rc =>
      match env.platformsBase with
      | none => (⟨false, "Platforms directory not available".data, none, none⟩, [], false)
      | some _ =>
        let partition := pyOr rc.partition env.queuesPartition
        if !(optTruthy partition) then
          (⟨false, "No partition specified and could not infer partition for platform ".data
            ++ rc.platform, none, none⟩, [], false)
        else
          let res := submitSlurmJob env.sbatch
          if !res.success then
            (⟨false, res.message, none, none⟩, [], true)
          else
            let experimentDir := env.dataDir ++ "/".data ++ env.experimentId
            let outputDir := experimentDir ++ "/output".data
            (⟨true, "Experiment submitted successfully".data, some env.experimentId, res.jobId⟩,
             [.metadataFile experimentDir res.jobId outputDir, .lastReportFile outputDir],
             true)

/-- Claim C3: `submit_experiment` writes `experiment_metadata.json` and the
`last_report_path` pointer if and only if `submit_slurm_job` was invoked and
reported success; on a failed submission it returns success False and
performs neither write (the pointer file keeps its previous content); on
success it writes the metadata and writes the experiment's output directory
path into the pointer file. -/
theorem claim_c3_submit_experiment (env : SubmitEnv) :
    ((submitExperiment env).2.1 ≠ [] ↔
      (submitExperiment env).2.2 = true ∧ (submitSlurmJob env.sbatch).success = true) ∧
    ((submitExperiment env).1.success = true ↔
      (submitExperiment env).2.2 = true ∧ (submitSlurmJob env.sbatch).success = true) ∧
    ((submitExperiment env).1.success = true →
      (submitExperiment env).2.1 =
        [.metadataFile (env.dataDir ++ "/".data ++ env.experimentId)
           (submitSlurmJob env.sbatch).jobId
           (env.dataDir ++ "/".data ++ env.experimentId ++ "/output".data),
         .lastReportFile (env.dataDir ++ "/".data ++ env.experimentId ++ "/output".data)]) ∧
    ((submitExperiment env).1.success = false →
      (submitExperiment env).2.1 = [] ∧
      ∀ prev, applyLastReport (submitExperiment env).2.1 prev = prev) := by
  rcases env with ⟨pg, dg, prep, eid, pb, qp, ea, ce, dd, sb⟩
  unfold submitExperiment
  cases pg <;> cases dg <;>
    simp only [Bool.not_true, Bool.not_false, Bool.and_self, Bool.and_true, Bool.true_and,
      Bool.and_false, Bool.false_and, if_true, if_false, Bool.true_eq_false, Bool.false_eq_true] <;>
  first
    | (simp [applyLastReport]; done)
    | (cases prep with
       | error m => simp [applyLastReport]
       | ok rc =>
         cases pb with
         | none => simp [applyLastReport]
         | some base =>
           by_cases hp : optTruthy (pyOr rc.partition qp)
           · simp only [hp, Bool.not_true, if_false, Bool.false_eq_true]
             by_cases hs : (submitSlurmJob sb).success
             · simp [hs, applyLastReport]
             · simp only [hs, Bool.not_false, if_true]
               simp [applyLastReport, hs]
           · simp [hp, applyLastReport])

-- ======================================================================
-- `web/routes.py`: the `/repeat_experiment` POST handler (claim C6)
-- ======================================================================

/-- The fields the route reads from the parsed runcard
(`runcard_data.get(...)`). -/
structure RepeatRuncard where
  platform : Option Str
  partition : Option Str
  environment : Option Str

/-- Oracle inputs of the `/repeat_experiment` handler, in source order: the
`report_path` form field, whether the report path exists, `os.listdir`, the
temp-directory creation and runcard copy (any exception before the inner
`try`), the runcard open/parse (the inner `try`), the config environment,
`get_partition`, `get_platforms_path` at the parameters-backup step, the two
parameters.json existence checks, the backup copy, the output directory
creation, the job-script write, the `sbatch` call, and the two writes after
a successful submission. `Except.error` carries the exception text. -/
structure RepeatEnv where
  reportPathForm : Option Str
  pathExists : Bool
  listing : Except Str (List Str)
  mkTempOps : Except Str Unit
  runcardLoad : Except Str RepeatRuncard
  configEnvironment : Option Str
  queuesPartition : Option Str
  platformsPath2 : Option Str
  reportParamsExists : Bool
  platformParamsExists : Bool
  backupCopy : Except Str Unit
  mkOutput : Except Str Unit
  writeScript : Except Str Unit
  sbatch : RunOutcome
  writeJobInfo : Except Str Unit
  writeLastReport : Except Str Unit

/-- The JSON payload and HTTP status a route returns. -/
structure RouteResp where
  success : Bool
  message : Str
  status : Nat
deriving DecidableEq

/-- The body of the `/repeat_experiment` handler inside its outer `try`:
`.ok` is a returned response, `.error` an exception that reaches the outer
`except` clause. The runcard-reading block has its own `except` clause
returning a 400 response. -/
def repeatCore (env : RepeatEnv) : Except Str RouteResp :=
  match env.reportPathForm with
  | none => .ok ⟨false, "Report path is required".data, 400⟩
  | some p =>
    if p.isEmpty then .ok ⟨false, "Report path is required".data, 400⟩
    else if !env.pathExists then
      .ok ⟨false, "Report path does not exist: ".data ++ p, 404⟩
    else
      match env.listing with
      | .error m => .error m
      | .ok names =>
        match names.find? (fun f => leadsWith "runcard".data f && trailsWith ".yml".data f) with
        | none => .ok ⟨false, "No runcard.yml file found in report directory".data, 400⟩
        | some _ =>
          match env.mkTempOps with
          | .error m => .error m
          | .ok _ =>
            match env.runcardLoad with
            | .error m => .ok ⟨false, "Error reading runcard: ".data ++ m, 400⟩
            | .ok rc =>
              if !(optTruthy rc.platform) then
                .ok ⟨false, "No platform specified in runcard".data, 400⟩
              else
                let environment := pyOr rc.environment env.configEnvironment
                if !(optTruthy environment) then
                  .ok ⟨false, "No environment specified in runcard or ".data
                    ++ (match environment with | none => "None".data | some s => s), 400⟩
                else
                  let partition := pyOr rc.partition env.queuesPartition
                  if !(optTruthy partition) then
                    .ok ⟨false,
                      "No partition specified in runcard and could not infer partition for platform ".data
                      ++ rc.platform.getD [], 400⟩
                  else
                    match env.platformsPath2 with
                    | none => .error "TypeError: join() argument must be str, not NoneType".data
                    | some _ =>
                      match (if env.reportParamsExists && env.platformParamsExists
                             then env.backupCopy else .ok ()) with
                      | .error m => .error m
                      | .ok _ =>
                        match env.mkOutput with
                        | .error m => .error m
                        | .ok _ =>
                          match env.writeScript with
                          | .error m => .error m
                          | .ok _ =>
                            match env.sbatch with
                            | .timedOut => .error "TimeoutExpired: sbatch timed out after 30 seconds".data
                            | .raised m => .error m
                            | .completed rc2 _ err =>
                              if rc2 = 0 then
                                match env.writeJobInfo with
                                | .error m => .error m
                                | .ok _ =>
                                  match env.writeLastReport with
                                  | .error m => .error m
                                  | .ok _ =>
                                    .ok ⟨true, "Experiment submitted successfully".data, 200⟩
                              else .ok ⟨false, "Failed to submit job: ".data ++ err, 500⟩

/-- The `/repeat_experiment` handler: the outer `except Exception` clause
converts any escaping exception into a 500 JSON payload, so the handler
always returns a response. -/
def repeatExperimentRoute (env : RepeatEnv) : RouteResp :=
  match repeatCore env with
  | .ok r => r
  | .error m => ⟨false, "Error repeating experiment: ".data ++ m, 500⟩

theorem repeatCore_ok_inv (env : RepeatEnv) (r : RouteResp)
    (h : repeatCore env = .ok r) : r.success = true ↔ r.status = 200 := by
  simp only [repeatCore] at h
  repeat' split at h
  all_goals first
    | (injection h with h2; subst h2; simp)
    | exact Except.noConfusion h

/-- A concrete environment for the `/repeat_experiment` handler in which
reading the runcard raises (here a YAML parse error); everything else is
well-behaved. -/
def repeatRuncardErrEnv : RepeatEnv :=
  { reportPathForm := some "reports/exp1".data
    pathExists := true
    listing := .ok ["runcard.yml".data]
    mkTempOps := .ok ()
    runcardLoad := .error "ScannerError: mapping values are not allowed here".data
    configEnvironment := some "qibolab".data
    queuesPartition := some "partA".data
    platformsPath2 := some "/home/user/platforms".data
    reportParamsExists := false
    platformParamsExists := false
    backupCopy := .ok ()
    mkOutput := .ok ()
    writeScript := .ok ()
    sbatch := .completed 0 "Submitted batch job 7".data []
    writeJobInfo := .ok ()
    writeLastReport := .ok () }

/-- Counterexample to claim C6: an exception raised while reading the
runcard during a POST to `/repeat_experiment` produces a 400 response, not
the claimed 500. -/
theorem claim_c6_counterexample :
    repeatExperimentRoute repeatRuncardErrEnv
      = ⟨false, "Error reading runcard: ScannerError: mapping values are not allowed here".data,
          400⟩ ∧
    repeatExperimentRoute repeatRuncardErrEnv ≠
      ⟨false, "Error reading runcard: ScannerError: mapping values are not allowed here".data,
          500⟩ := by
  exact ⟨rfl, by decide⟩

/-- Claim C6 (amended): the `/repeat_experiment` handler always returns a
JSON payload (no exception propagates: every raise inside the body is
converted by the outer handler); its `success` field is True exactly for the
200 response; a missing `report_path` yields 400, a nonexistent path 404; an
exception raised outside the runcard-reading block yields a 500 payload whose
message describes the error; an exception raised while reading the runcard
yields a 400 payload (the original claim said 500 for every exception). -/
theorem claim_c6_repeat_experiment_route (env : RepeatEnv) :
    ((repeatExperimentRoute env).success = true ↔ (repeatExperimentRoute env).status = 200) ∧
    (env.reportPathForm = none ∨ env.reportPathForm = some [] →
      repeatExperimentRoute env = ⟨false, "Report path is required".data, 400⟩) ∧
    (∀ p, env.reportPathForm = some p → p ≠ [] → env.pathExists = false →
      repeatExperimentRoute env
        = ⟨false, "Report path does not exist: ".data ++ p, 404⟩) ∧
    (∀ m, repeatCore env = .error m →
      repeatExperimentRoute env
        = ⟨false, "Error repeating experiment: ".data ++ m, 500⟩) ∧
    (∀ p names f m, env.reportPathForm = some p → p ≠ [] → env.pathExists = true →
      env.listing = .ok names →
      names.find? (fun f' => leadsWith "runcard".data f' && trailsWith ".yml".data f') = some f →
      env.mkTempOps = .ok () →
      env.runcardLoad = .error m →
      repeatExperimentRoute env = ⟨false, "Error reading runcard: ".data ++ m, 400⟩) := by
  refine ⟨?_, ?_, ?_, ?_, ?_⟩
  · cases hx : repeatCore env with
    | ok r =>
      have := repeatCore_ok_inv env r hx
      simp [repeatExperimentRoute, hx, this]
    | error m => simp [repeatExperimentRoute, hx]
  · intro h
    rcases h with h | h <;>
      simp [repeatExperimentRoute, repeatCore, h, List.isEmpty]
  · intro p hp hne hex
    simp [repeatExperimentRoute, repeatCore, hp, hex, List.isEmpty_iff, hne]
  · intro m hm
    simp [repeatExperimentRoute, hm]
  · intro p names f m h1 h2 h3 h4 h5 h6 h7
    simp [repeatExperimentRoute, repeatCore, h1, h2, h3, h4, h5, h6, h7, List.isEmpty_iff]

-- ======================================================================
-- `web/reports.py`: `report_viewer` HTML rewriting (claim C7)
-- ======================================================================

/-- A single or double quote, the character class `['"]` of the asset
regexes. -/
def isQuote (c : Char) : Bool := c = dquote || c = squote

/-- Scan up to the first quote character: the chars before it, the quote,
and the rest. `none` when no quote follows (the regex then has no closing
quote and fails). -/
def takeToQuote : Str → Option (Str × Char × Str)
  | [] => none
  | c :: cs =>
    if isQuote c then some ([], c, cs)
    else
      match takeToQuote cs with
      | none => none
      | some (u, q, r) => some (c :: u, q, r)

/-- The negative lookahead `(?!/|http|https|data:)` of the asset regexes
(matching `http` subsumes `https`). -/
def startsBad (u : Str) : Bool :=
  leadsWith "/".data u || leadsWith "http".data u || leadsWith "data:".data u

/-- `[^'"]+\.EXT[^'"]*`: the extension occurs at an index ≥ 1 of the URL. -/
def extLate (ext u : Str) : Bool := containsSub ext (u.drop 1)

def cssCheck (u : Str) : Bool := extLate ".css".data u

def jsCheck (u : Str) : Bool := extLate ".js".data u

def imgCheck (u : Str) : Bool :=
  extLate ".png".data u || extLate ".jpg".data u || extLate ".jpeg".data u ||
  extLate ".gif".data u || extLate ".svg".data u

def dataCheck (u : Str) : Bool :=
  extLate ".json".data u || extLate ".csv".data u || extLate ".data".data u ||
  extLate ".yml".data u || extLate ".yaml".data u

/-- Whether the regex `KEY=(['"])(?!/|http|https|data:)([^'"]+PAT[^'"]*)['"]`
matches at the start of `s`; on a match, the URL group and the text after
the closing quote. -/
def matchAssetAt (key : Str) (chk : Str → Bool) (s : Str) : Option (Str × Str) :=
  if leadsWith (key ++ ['=']) s then
    match s.drop (key.length + 1) with
    | [] => none
    | c :: cs =>
      if isQuote c then
        match takeToQuote cs with
        | none => none
        | some (u, _, r) =>
          if !u.isEmpty && !startsBad u && chk u then some (u, r) else none
      else none
  else none

theorem takeToQuote_rest_lt (s : Str) :
    ∀ u q r, takeToQuote s = some (u, q, r) → r.length < s.length := by
  induction s with
  | nil => intro u q r h; simp [takeToQuote] at h
  | cons c cs ih =>
    intro u q r h
    rw [takeToQuote] at h
    by_cases hq : isQuote c
    · rw [if_pos hq] at h
      injection h with h
      injection h with h1 h2
      injection h2 with h2 h3
      subst h3
      simp
    · rw [if_neg hq] at h
      rcases h2 : takeToQuote cs with _ | ⟨u', q', r'⟩
      · rw [h2] at h; exact absurd h (by simp)
      · rw [h2] at h
        injection h with h
        injection h with h1 hrest
        injection hrest with h3 h4
        subst h4
        exact Nat.lt_succ_of_lt (ih u' q' r' h2)

theorem matchAssetAt_rest_lt (key : Str) (chk : Str → Bool) (s : Str) :
    ∀ u r, matchAssetAt key chk s = some (u, r) → r.length < s.length := by
  intro u r h
  simp only [matchAssetAt] at h
  repeat' split at h
  all_goals simp at h
  rename_i hl x1 c cs hd hq x2 u' q' r' htq hcond
  obtain ⟨h1, h2⟩ := h
  subst h2
  have ha : r'.length < cs.length := takeToQuote_rest_lt cs u' q' r' htq
  have hb : cs.length < s.length := by
    have := congrArg List.length hd
    simp [List.length_drop] at this
    omega
  omega

/-- One `re.sub` pass for an asset regex with key `href` or `src`: scan left
to right, replace each match `KEY=q URL q'` by
`KEY="/report_assets/URL"`, and continue after the match. -/
def subAsset (key : Str) (chk : Str → Bool) : Str → Str
  | [] => []
  | c :: cs =>
    match h : matchAssetAt key chk (c :: cs) with
    | some (u, r) =>
      key ++ "=\"/report_assets/".data ++ u ++ '"' :: subAsset key chk r
    | none => c :: subAsset key chk cs
termination_by s => s.length
decreasing_by
  · exact matchAssetAt_rest_lt key chk (c :: cs) u r h
  · simp

/-- Whether the keyless regex `(['"])(?!...)([^'"]+PAT[^'"]*)['"]` matches at
the start of `s`. -/
def matchQuotedAt (chk : Str → Bool) (s : Str) : Option (Str × Str) :=
  match s with
  | [] => none
  | c :: cs =>
    if isQuote c then
      match takeToQuote cs with
      | none => none
      | some (u, _, r) =>
        if !u.isEmpty && !startsBad u && chk u then some (u, r) else none
    else none

theorem matchQuotedAt_rest_lt (chk : Str → Bool) (s : Str) :
    ∀ u r, matchQuotedAt chk s = some (u, r) → r.length < s.length := by
  intro u r h
  simp only [matchQuotedAt] at h
  repeat' split at h
  all_goals simp at h
  rename_i x1 c cs hq x2 u' q' r' htq hcond
  obtain ⟨h1, h2⟩ := h
  subst h2
  have ha : r'.length < cs.length := takeToQuote_rest_lt cs u' q' r' htq
  simp
  omega

/-- The last `re.sub` pass of `report_viewer` (data-file references): replace
each quoted reference by `"/report_assets/..."`. -/
def subQuoted (chk : Str → Bool) : Str → Str
  | [] => []
  | c :: cs =>
    match h : matchQuotedAt chk (c :: cs) with
    | some (u, r) => "\"/report_assets/".data ++ u ++ '"' :: subQuoted chk r
    | none => c :: subQuoted chk cs
termination_by s => s.length
decreasing_by
  · exact matchQuotedAt_rest_lt chk (c :: cs) u r h
  · simp

/-- Split at the first occurrence of `needle`: the text before it and the
text after it, or `none` when `needle` does not occur. -/
def findSplit (needle : Str) : Str → Option (Str × Str)
  | [] => if needle.isEmpty then some ([], []) else none
  | c :: cs =>
    if leadsWith needle (c :: cs) then some ([], (c :: cs).drop needle.length)
    else
      match findSplit needle cs with
      | none => none
      | some (pre, post) => some (c :: pre, post)

theorem leadsWith_length_le (p : Str) : ∀ s, leadsWith p s = true → p.length ≤ s.length := by
  induction p with
  | nil => intro s _; simp
  | cons a as ih =>
    intro s h
    rcases s with _ | ⟨b, bs⟩
    · simp [leadsWith] at h
    · rw [leadsWith] at h
      rcases (Bool.and_eq_true _ _).mp h with ⟨_, h2⟩
      have := ih bs h2
      simp
      omega

theorem findSplit_lengths (needle : Str) :
    ∀ s pre post, findSplit needle s = some (pre, post) →
      pre.length + needle.length + post.length = s.length := by
  intro s
  induction s with
  | nil =>
    intro pre post h
    rw [findSplit] at h
    by_cases hn : needle.isEmpty
    · rw [if_pos hn] at h
      injection h with h
      injection h with h1 h2
      subst h1; subst h2
      simp [List.isEmpty_iff.mp hn]
    · rw [if_neg hn] at h; exact absurd h (by simp)
  | cons c cs ih =>
    intro pre post h
    rw [findSplit] at h
    by_cases hl : leadsWith needle (c :: cs)
    · rw [if_pos hl] at h
      injection h with h
      injection h with h1 h2
      subst h1; subst h2
      have := leadsWith_length_le needle (c :: cs) hl
      simp [List.length_drop] at this ⊢
      omega
    · rw [if_neg hl] at h
      rcases h2 : findSplit needle cs with _ | ⟨pre', post'⟩
      · rw [h2] at h; exact absurd h (by simp)
      · rw [h2] at h
        injection h with h
        injection h with h1 h3
        subst h1; subst h3
        have := ih pre' post' h2
        simp
        omega

theorem findSplit_post_lt (needle : Str) (hne : needle ≠ []) (s pre post : Str)
    (h : findSplit needle s = some (pre, post)) : post.length < s.length := by
  have := findSplit_lengths needle s pre post h
  have : 1 ≤ needle.length := by
    rcases needle with _ | ⟨a, as⟩
    · exact absurd rfl hne
    · simp
  omega

/-- Python `str.split(sep)` for a nonempty separator: the chunks between
non-overlapping occurrences, scanned left to right. -/
def pySplit (sep : Str) (s : Str) : List Str :=
  if hne : sep = [] then [s]
  else
    match h : findSplit sep s with
    | none => [s]
    | some (pre, post) => pre :: pySplit sep post
termination_by s.length
decreasing_by exact findSplit_post_lt sep hne s pre post h

/-- The head-content extraction of `report_viewer`:
`content.split('<head>')[1].split('</head>')[0]` when both tags occur,
otherwise the empty string. -/
def headContent (content : Str) : Str :=
  if containsSub "<head>".data content && containsSub "</head>".data content then
    (pySplit "</head>".data ((pySplit "<head>".data content).getD 1 [])).getD 0 []
  else []

/-- The body-content extraction of `report_viewer`:
`content.split('<body>')[1].split('</body>')[0]` when both tags occur
(otherwise the whole content), then dropping everything up to `</header>`
when a `<header` is present. -/
def bodyContent (content : Str) : Str :=
  let body :=
    if containsSub "<body>".data content && containsSub "</body>".data content then
      (pySplit "</body>".data ((pySplit "<body>".data content).getD 1 [])).getD 0 []
    else content
  if containsSub "<header".data body && containsSub "</header>".data body then
    (pySplit "</header>".data body).getD 1 []
  else body

/-- The opening text of the report's sidebar element. -/
def navOpen : Str := "<nav id=\"sidebarMenu\"".data

/-- `re.sub(r'<nav id="sidebarMenu".*?</nav>', '', body, flags=re.DOTALL)`:
each occurrence of the opening text up to the first following `</nav>` is
removed; where no `</nav>` follows, the pattern does not match. -/
def removeNav : Str → Str
  | [] => []
  | c :: cs =>
    if leadsWith navOpen (c :: cs) then
      match h : findSplit "</nav>".data ((c :: cs).drop navOpen.length) with
      | some (_, post) => removeNav post
      | none => c :: removeNav cs
    else c :: removeNav cs
termination_by s => s.length
decreasing_by
  · have h1 := findSplit_post_lt "</nav>".data (by simp) _ _ _ h
    have h2 : ((c :: cs).drop navOpen.length).length ≤ (c :: cs).length :=
      by simp [List.length_drop]
    calc post.length < ((c :: cs).drop navOpen.length).length := h1
    _ ≤ (c :: cs).length := h2
  · simp
  · simp

/-- `report_viewer`'s HTML processing pipeline on the report's `index.html`
content: head and body extraction, sidebar removal, then the asset
rewrites — CSS hrefs in the head only, JS srcs in head and body, image srcs
in the body, and quoted data-file references in the body. Returns the head
content and the body content that are passed to the template. -/
def reportViewerTransform (content : Str) : Str × Str :=
  let head0 := headContent content
  let body0 := bodyContent content
  let body1 := removeNav body0
  let head1 := subAsset "href".data cssCheck head0
  let head2 := subAsset "src".data jsCheck head1
  let body2 := subAsset "src".data jsCheck body1
  let body3 := subAsset "src".data imgCheck body2
  let body4 := subQuoted dataCheck body3
  (head2, body4)

theorem leadsWith_refl_append (p t : Str) : leadsWith p (p ++ t) = true := by
  induction p with
  | nil => rfl
  | cons a as ih => simp [leadsWith, ih]

theorem leadsWith_iff_take (p : Str) : ∀ s, leadsWith p s = true ↔ s.take p.length = p := by
  induction p with
  | nil => intro s; simp [leadsWith]
  | cons a as ih =>
    intro s
    rcases s with _ | ⟨b, bs⟩
    · simp [leadsWith]
    · rw [leadsWith]
      simp only [List.length_cons, List.take_succ_cons, Bool.and_eq_true, decide_eq_true_eq]
      constructor
      · rintro ⟨h1, h2⟩
        subst h1
        rw [(ih bs).mp h2]
      · intro h
        injection h with h1 h2
        exact ⟨h1.symm, (ih bs).mpr h2⟩

theorem containsSub_tail (n : Str) (c : Char) (s : Str)
    (h : containsSub n (c :: s) = false) : containsSub n s = false := by
  rw [containsSub] at h
  exact (Bool.or_eq_false_iff.mp h).2

theorem takeToQuote_append (u : Str) :
    ∀ q rest, (∀ c ∈ u, isQuote c = false) → isQuote q = true →
      takeToQuote (u ++ q :: rest) = some (u, q, rest) := by
  induction u with
  | nil => intro q rest _ hq; simp [takeToQuote, hq]
  | cons a as ih =>
    intro q rest hu hq
    have ha : isQuote a = false := hu a (by simp)
    rw [List.cons_append, takeToQuote, if_neg (by simp [ha])]
    rw [ih q rest (fun c hc => hu c (by simp [hc])) hq]

theorem leadsWith_nil_false (a : Char) (as : Str) : leadsWith (a :: as) [] = false := rfl

theorem matchAssetAt_pattern (key : Str) (chk : Str → Bool) (u : Str) (q q2 : Char) (rest : Str)
    (hq : isQuote q = true) (hq2 : isQuote q2 = true) (hu : u ≠ [])
    (huq : ∀ c ∈ u, isQuote c = false) (hbad : startsBad u = false) (hchk : chk u = true) :
    matchAssetAt key chk (key ++ '=' :: q :: (u ++ q2 :: rest)) = some (u, rest) := by
  rw [matchAssetAt]
  rw [List.append_cons key '=' (q :: (u ++ q2 :: rest))]
  rw [if_pos (leadsWith_refl_append _ _)]
  have hdrop : ((key ++ ['=']) ++ q :: (u ++ q2 :: rest)).drop (key.length + 1)
      = q :: (u ++ q2 :: rest) := by
    have : key.length + 1 = (key ++ ['=']).length := by simp
    rw [this, List.drop_left]
  simp only [hdrop]
  rw [if_pos hq, takeToQuote_append u q2 rest huq hq2]
  show (if (!u.isEmpty && !startsBad u && chk u) = true then some (u, rest) else none)
    = some (u, rest)
  rw [if_pos (by simp [List.isEmpty_iff, hu, hbad, hchk])]

theorem subAsset_cons_match (key : Str) (chk : Str → Bool) (c : Char) (cs u r : Str)
    (h : matchAssetAt key chk (c :: cs) = some (u, r)) :
    subAsset key chk (c :: cs)
      = key ++ "=\"/report_assets/".data ++ u ++ '"' :: subAsset key chk r := by
  rw [subAsset]
  split
  · rename_i u' r' heq
    rw [heq] at h
    injection h with h'
    injection h' with h1 h2
    subst h1; subst h2
    rfl
  · rename_i heq
    rw [heq] at h
    exact absurd h (by simp)

theorem subAsset_cons_nomatch (key : Str) (chk : Str → Bool) (c : Char) (cs : Str)
    (h : matchAssetAt key chk (c :: cs) = none) :
    subAsset key chk (c :: cs) = c :: subAsset key chk cs := by
  rw [subAsset]
  split
  · rename_i u' r' heq
    rw [heq] at h
    exact absurd h (by simp)
  · rfl

theorem matchAssetAt_none_of_not_leads (key : Str) (chk : Str → Bool) (s : Str)
    (h : leadsWith (key ++ ['=']) s = false) : matchAssetAt key chk s = none := by
  rw [matchAssetAt, if_neg (by simp [h])]

theorem subAsset_nomatch (key : Str) (chk : Str → Bool) :
    ∀ s, containsSub (key ++ ['=']) s = false → subAsset key chk s = s := by
  intro s
  induction s with
  | nil => intro _; rw [subAsset]
  | cons c cs ih =>
    intro h
    rw [containsSub] at h
    rcases Bool.or_eq_false_iff.mp h with ⟨h1, h2⟩
    rw [subAsset_cons_nomatch key chk c cs (matchAssetAt_none_of_not_leads key chk _ h1)]
    rw [ih h2]

theorem subAsset_unchanged_bad (key : Str) (chk : Str → Bool) (u : Str) (q q2 : Char)
    (hkey : key ≠ []) (hq : isQuote q = true) (hq2 : isQuote q2 = true) (hu : u ≠ [])
    (huq : ∀ c ∈ u, isQuote c = false) (hbad : startsBad u = true)
    (htail : containsSub (key ++ ['=']) (key.drop 1 ++ '=' :: q :: (u ++ [q2])) = false) :
    subAsset key chk (key ++ '=' :: q :: (u ++ [q2])) = key ++ '=' :: q :: (u ++ [q2]) := by
  rcases key with _ | ⟨k0, kt⟩
  · exact absurd rfl hkey
  · have hm : matchAssetAt (k0 :: kt) chk ((k0 :: kt) ++ '=' :: q :: (u ++ [q2])) = none := by
      rw [matchAssetAt]
      rw [List.append_cons (k0 :: kt) '=' (q :: (u ++ [q2]))]
      rw [if_pos (leadsWith_refl_append _ _)]
      have hdrop : (((k0 :: kt) ++ ['=']) ++ (q :: (u ++ [q2]))).drop ((k0 :: kt).length + 1)
          = q :: (u ++ [q2]) := by
        have hlen : (k0 :: kt).length + 1 = ((k0 :: kt) ++ ['=']).length := by simp
        rw [hlen, List.drop_left]
      simp only [hdrop]
      rw [if_pos hq, takeToQuote_append u q2 [] huq hq2]
      show (if (!u.isEmpty && !startsBad u && chk u) = true then some (u, []) else none) = none
      rw [if_neg (by simp [hbad])]
    have hx : (k0 :: kt) ++ '=' :: q :: (u ++ [q2])
        = k0 :: (kt ++ '=' :: q :: (u ++ [q2])) := rfl
    rw [hx] at hm ⊢
    rw [subAsset_cons_nomatch _ _ _ _ hm]
    have htail' : containsSub ((k0 :: kt) ++ ['=']) (kt ++ '=' :: q :: (u ++ [q2])) = false := by
      simpa using htail
    rw [subAsset_nomatch _ _ _ htail']

theorem findSplit_append_of_not_contains (needle : Str) (hne : needle ≠ []) :
    ∀ mid post, containsSub needle (mid ++ needle.dropLast) = false →
      findSplit needle (mid ++ (needle ++ post)) = some (mid, post) := by
  intro mid
  induction mid with
  | nil =>
    intro post _
    rcases hn : needle with _ | ⟨a, as⟩
    · exact absurd hn hne
    · rw [List.nil_append, List.cons_append, findSplit]
      rw [if_pos (by exact leadsWith_refl_append (a :: as) post)]
      have hdl : ((a :: as) ++ post).drop (a :: as).length = post := List.drop_left _ _
      simp only [List.cons_append] at hdl
      try rw [hdl]
  | cons c mid' ih =>
    intro post h
    have hni : needle ≠ [] := hne
    have hl : leadsWith needle (c :: (mid' ++ (needle ++ post))) = false := by
      by_contra hcon
      have hcon' : leadsWith needle (c :: (mid' ++ (needle ++ post))) = true := by
        revert hcon; cases leadsWith needle (c :: (mid' ++ (needle ++ post))) <;> simp
      have htake := (leadsWith_iff_take needle _).mp hcon'
      have hlast := List.dropLast_append_getLast hni
      have hsplit : c :: (mid' ++ (needle ++ post))
          = ((c :: mid') ++ needle.dropLast) ++ (needle.getLast hni :: post) := by
        conv_lhs => rw [← hlast]
        simp [List.append_assoc]
      have hlen : needle.length ≤ ((c :: mid') ++ needle.dropLast).length := by
        have h1 : 1 ≤ needle.length := by
          rcases needle with _ | _
          · exact absurd rfl hni
          · simp
        simp [List.length_append, List.length_dropLast]
        omega
      have htake2 : (((c :: mid') ++ needle.dropLast) ++ (needle.getLast hni :: post)).take needle.length
          = ((c :: mid') ++ needle.dropLast).take needle.length :=
        List.take_append_of_le_length hlen
      have htrue : leadsWith needle ((c :: mid') ++ needle.dropLast) = true := by
        rw [leadsWith_iff_take]
        rw [hsplit, htake2] at htake
        exact htake
      have hcontains : containsSub needle ((c :: mid') ++ needle.dropLast) = true := by
        rw [List.cons_append, containsSub]
        rw [List.cons_append] at htrue
        simp [htrue]
      rw [hcontains] at h
      exact absurd h (by simp)
    have hgoal : (c :: mid') ++ (needle ++ post) = c :: (mid' ++ (needle ++ post)) := by
      simp
    rw [hgoal, findSplit, if_neg (by simp [hl])]
    have h' : containsSub needle (mid' ++ needle.dropLast) = false := by
      have hh : containsSub needle (c :: (mid' ++ needle.dropLast)) = false := by
        simpa using h
      exact containsSub_tail needle c _ hh
    rw [ih post h']

theorem removeNav_removes (mid post : Str)
    (hmid : containsSub "</nav>".data (mid ++ "</nav".data) = false) :
    removeNav (navOpen ++ (mid ++ ("</nav>".data ++ post))) = removeNav post := by
  have hx : navOpen ++ (mid ++ ("</nav>".data ++ post))
      = '<' :: ("nav id=\"sidebarMenu\"".data ++ (mid ++ ("</nav>".data ++ post))) := rfl
  have hdrop : ('<' :: ("nav id=\"sidebarMenu\"".data
        ++ (mid ++ ("</nav>".data ++ post)))).drop navOpen.length
      = mid ++ ("</nav>".data ++ post) :=
    List.drop_left navOpen (mid ++ ("</nav>".data ++ post))
  rw [hx, removeNav]
  rw [if_pos (by exact leadsWith_refl_append navOpen (mid ++ ("</nav>".data ++ post)))]
  split
  · rename_i pre' post' heq
    rw [hdrop] at heq
    rw [findSplit_append_of_not_contains "</nav>".data (by simp) mid post hmid] at heq
    injection heq with heq'
    injection heq' with h1 h2
    subst h2
    rfl
  · rename_i heq
    rw [hdrop] at heq
    rw [findSplit_append_of_not_contains "</nav>".data (by simp) mid post hmid] at heq
    exact absurd heq (by simp)


theorem removeNav_cons_noLead (c : Char) (cs : Str)
    (h : leadsWith navOpen (c :: cs) = false) :
    removeNav (c :: cs) = c :: removeNav cs := by
  rw [removeNav, if_neg (by simp [h])]

theorem removeNav_nomatch : ∀ s, containsSub navOpen s = false → removeNav s = s := by
  intro s
  induction s with
  | nil => intro _; rw [removeNav]
  | cons c cs ih =>
    intro h
    rw [containsSub] at h
    rcases Bool.or_eq_false_iff.mp h with ⟨h1, h2⟩
    rw [removeNav_cons_noLead c cs h1, ih h2]

theorem subQuoted_cons_nomatch (chk : Str → Bool) (c : Char) (cs : Str)
    (h : matchQuotedAt chk (c :: cs) = none) :
    subQuoted chk (c :: cs) = c :: subQuoted chk cs := by
  rw [subQuoted]
  split
  · rename_i u' r' heq
    rw [heq] at h
    exact absurd h (by simp)
  · rfl

theorem subQuoted_nomatch (chk : Str → Bool) :
    ∀ s, (∀ n, matchQuotedAt chk (s.drop n) = none) → subQuoted chk s = s := by
  intro s
  induction s with
  | nil => intro _; rw [subQuoted]
  | cons c cs ih =>
    intro h
    rw [subQuoted_cons_nomatch chk c cs (h 0)]
    rw [ih (fun n => h (n + 1))]

theorem subAsset_match_rewrite (key : Str) (chk : Str → Bool) (s u r : Str)
    (h : matchAssetAt key chk s = some (u, r)) :
    subAsset key chk s = key ++ "=\"/report_assets/".data ++ u ++ '"' :: subAsset key chk r := by
  rcases s with _ | ⟨c, cs⟩
  · exfalso
    rw [matchAssetAt] at h
    rcases hk : key ++ ['='] with _ | ⟨a, as⟩
    · simp at hk
    · rw [hk] at h
      simp [leadsWith] at h
  · exact subAsset_cons_match key chk c cs u r h

/-- Counterexample to claim C7: the report HTML `<a href="b.css">` (a `.css`
href located in the document body) is not rewritten by `report_viewer` — the
CSS substitution runs only on the extracted head content — contradicting
"rewrites every href of a .css file ... in the report HTML". -/
theorem claim_c7_counterexample :
    (reportViewerTransform "<a href=\"b.css\">".data).2 = "<a href=\"b.css\">".data ∧
    (reportViewerTransform "<a href=\"b.css\">".data).2
      ≠ "<a href=\"/report_assets/b.css\">".data := by
  have hq : subQuoted dataCheck "<a href=\"b.css\">".data = "<a href=\"b.css\">".data := by
    apply subQuoted_nomatch
    intro n
    by_cases hn : n ≤ "<a href=\"b.css\">".data.length
    · exact (by decide : ∀ n ≤ "<a href=\"b.css\">".data.length,
        matchQuotedAt dataCheck ("<a href=\"b.css\">".data.drop n) = none) n hn
    · have hd : "<a href=\"b.css\">".data.drop n = [] := by
        apply List.drop_eq_nil_of_le
        simp at hn ⊢
        omega
      rw [hd]
      rfl
  have hhead : headContent "<a href=\"b.css\">".data = [] := by decide
  have hbody : bodyContent "<a href=\"b.css\">".data = "<a href=\"b.css\">".data := by decide
  have hnav : removeNav "<a href=\"b.css\">".data = "<a href=\"b.css\">".data :=
    removeNav_nomatch _ (by decide)
  have hjs : subAsset "src".data jsCheck "<a href=\"b.css\">".data = "<a href=\"b.css\">".data :=
    subAsset_nomatch _ _ _ (by decide)
  have himg : subAsset "src".data imgCheck "<a href=\"b.css\">".data = "<a href=\"b.css\">".data :=
    subAsset_nomatch _ _ _ (by decide)
  have hfull : (reportViewerTransform "<a href=\"b.css\">".data).2
      = "<a href=\"b.css\">".data := by
    show subQuoted dataCheck (subAsset "src".data imgCheck (subAsset "src".data jsCheck
      (removeNav (bodyContent "<a href=\"b.css\">".data)))) = "<a href=\"b.css\">".data
    rw [hbody, hnav, hjs, himg, hq]
  exact ⟨hfull, by rw [hfull]; decide⟩

/-- Claim C7 (amended): `report_viewer` rewrites CSS hrefs in the head
content only, JS srcs in head and body, image srcs in the body, and removes
the `<nav id="sidebarMenu" ...</nav>` element from the body; each matching
reference whose URL does not begin with `/`, `http`, or `data:` is rewritten
to a `/report_assets/`-prefixed URL, and references beginning with those
prefixes, or text without the `KEY=` pattern, are left unchanged. -/
theorem claim_c7_report_viewer (content : Str) :
    (reportViewerTransform content
      = (subAsset "src".data jsCheck (subAsset "href".data cssCheck (headContent content)),
         subQuoted dataCheck (subAsset "src".data imgCheck (subAsset "src".data jsCheck
           (removeNav (bodyContent content)))))) ∧
    (∀ (key : Str) (chk : Str → Bool) (u : Str) (q q2 : Char) (rest : Str),
      isQuote q = true → isQuote q2 = true → u ≠ [] →
      (∀ c ∈ u, isQuote c = false) → startsBad u = false → chk u = true →
      subAsset key chk (key ++ '=' :: q :: (u ++ q2 :: rest))
        = key ++ "=\"/report_assets/".data ++ u ++ '"' :: subAsset key chk rest) ∧
    (∀ (key : Str) (chk : Str → Bool) (u : Str) (q q2 : Char),
      key ≠ [] → isQuote q = true → isQuote q2 = true → u ≠ [] →
      (∀ c ∈ u, isQuote c = false) → startsBad u = true →
      containsSub (key ++ ['=']) (key.drop 1 ++ '=' :: q :: (u ++ [q2])) = false →
      subAsset key chk (key ++ '=' :: q :: (u ++ [q2])) = key ++ '=' :: q :: (u ++ [q2])) ∧
    (∀ (key : Str) (chk : Str → Bool) (s : Str),
      containsSub (key ++ ['=']) s = false → subAsset key chk s = s) ∧
    (∀ mid post, containsSub "</nav>".data (mid ++ "</nav".data) = false →
      removeNav (navOpen ++ (mid ++ ("</nav>".data ++ post))) = removeNav post) := by
  refine ⟨rfl, ?_, ?_, ?_, ?_⟩
  · intro key chk u q q2 rest hq hq2 hu huq hbad hchk
    exact subAsset_match_rewrite key chk _ u rest
      (matchAssetAt_pattern key chk u q q2 rest hq hq2 hu huq hbad hchk)
  · intro key chk u q q2 hkey hq hq2 hu huq hbad htail
    exact subAsset_unchanged_bad key chk u q q2 hkey hq hq2 hu huq hbad htail
  · intro key chk s h
    exact subAsset_nomatch key chk s h
  · intro mid post h
    exact removeNav_removes mid post h
